import Mathlib

/-!
WebSocket framing codec of shadowsocksr-native, file `src/ws_tls_basic.c`, and the
configuration loading of its client, file `src/client/main.c`.

A shallow embedding of `websocket_build_frame`, `websocket_retrieve_payload` and
`websocket_generate_sec_websocket_accept` (namespace `WsTlsBasic`) and of `parse_config_file`
and `parse_opts` (namespace `ClientMain`), followed by theorems about them.

Conventions of the embedding:

* A byte buffer is a `List Nat`; a buffer is well formed when every element is below 256
  (`IsBytes`).  A pointer to a buffer is the list of bytes found from that address on, and a
  length argument (`payload_len`, `dataLen`) is passed next to it, as in the source.  A read
  past the end of the list gives 0.
* `size_t` is 64 bits wide: arithmetic on it is taken modulo `2 ^ 64` (`SIZE_MOD`).
* A pointer argument that may be `NULL` is an `Option`; the `allocator` function pointer, of
  which only the `NULL` test matters, is a `Bool` (`true`: not `NULL`).  An allocation through
  an allocator that is not `NULL` is assumed to succeed, as the source never tests its result.
* An out-parameter (`frame_len`, `payload_len`) is an `Option Nat`: `none` for a `NULL` pointer,
  `some v` for a pointer to a cell holding `v`.  The functions return the cell after the call.
-/

namespace WsTlsBasic

/-! ## Memory primitives -/

/-- Range of `size_t`: the source is modelled for a 64-bit `size_t`. -/
def SIZE_MOD : Nat := 2 ^ 64

/-- Largest size of an object in memory (`PTRDIFF_MAX` with a 64-bit `size_t`). -/
def PTRDIFF_MAX : Nat := 2 ^ 63 - 1

/-- Every element is a value of `uint8_t`. -/
def IsBytes (l : List Nat) : Prop := ∀ b ∈ l, b < 256

instance (l : List Nat) : Decidable (IsBytes l) := by
  unfold IsBytes; infer_instance

/-- Read `p[i]`. -/
def rd (p : List Nat) (i : Nat) : Nat := p.getD i 0

/-- A block of `n` bytes after `memset(p, 0, n)`. -/
def zeroed (n : Nat) : List Nat := List.replicate n 0

/-- Buffer `dst` after `memcpy(dst + doff, src + soff, n)`. -/
def memcpy (dst : List Nat) (doff : Nat) (src : List Nat) (soff : Nat) (n : Nat) : List Nat :=
  (List.range dst.length).map fun j =>
    if doff ≤ j ∧ j < doff + n then rd src (soff + (j - doff)) else rd dst j

/-- Buffer `p` after `*((uint16_t *)(p + off)) = htons(v)`: the two bytes of `v` in network
(big-endian) order, whatever the byte order of the host. -/
def store_htons (p : List Nat) (off : Nat) (v : Nat) : List Nat :=
  (p.set off (v / 256 % 256)).set (off + 1) (v % 256)

/-- Buffer `p` after `*((uint32_t *)(p + off)) = htonl(v)`. -/
def store_htonl (p : List Nat) (off : Nat) (v : Nat) : List Nat :=
  (((p.set off (v / 2 ^ 24 % 256)).set (off + 1) (v / 2 ^ 16 % 256)).set
    (off + 2) (v / 2 ^ 8 % 256)).set (off + 3) (v % 256)

/-- The value `ntohs(*((uint16_t *)(p + off)))`. -/
def load_ntohs (p : List Nat) (off : Nat) : Nat :=
  rd p off * 256 + rd p (off + 1)

/-- The value `ntohl(*((uint32_t *)(p + off)))`. -/
def load_ntohl (p : List Nat) (off : Nat) : Nat :=
  rd p off * 2 ^ 24 + rd p (off + 1) * 2 ^ 16 + rd p (off + 2) * 2 ^ 8 + rd p (off + 3)

/-- What a call hands back: the returned pointer (`none` is `NULL`, `some buf` the allocated
block) and the out-parameter cell after the call. -/
structure WsResult where
  ret : Option (List Nat)
  out_len : Option Nat
deriving DecidableEq

/-! ## `websocket_build_frame` -/

/-- The macro `WS_MASK_SIZE`. -/
def WS_MASK_SIZE : Nat := 4

/-- The three-way choice of the length form in `websocket_build_frame`: the pair
`(payload_len_small, len_size)`, or `none` for the final `else` branch. -/
def select_len_form (payload_len : Nat) : Option (Nat × Nat) :=
  if payload_len ≤ 125 then some (payload_len, 0)
  else if payload_len > 125 ∧ payload_len ≤ 0xffff then some (126, 2)
  else if payload_len > 0xffff ∧ payload_len ≤ 0xffffffffffffffff then some (127, 8)
  else none

/-- The masking loop of `websocket_build_frame`:
`for (i = 0; i < payload_len; i++) data[payload_offset + i] ^= mask[i % 4] & 0xff;`. -/
def mask_loop (mask : List Nat) (payload_offset payload_len : Nat) (data : List Nat) : List Nat :=
  (List.range payload_len).foldl
    (fun d i => d.set (payload_offset + i)
      ((rd d (payload_offset + i) ^^^ (rd mask (i % WS_MASK_SIZE) &&& 0xff)) % 256)) data

/-- The function `websocket_build_frame(masked, payload, payload_len, allocator, frame_len)`.
The extra argument `mask` is what `random_bytes_generator("RANDOM_GEN", mask, 4)` leaves in the
local array `mask[4]`. -/
def websocket_build_frame (masked : Int) (payload : Option (List Nat)) (payload_len : Nat)
    (allocator : Bool) (frame_len : Option Nat) (mask : List Nat) : WsResult :=
  match payload with
  | none => ⟨none, frame_len⟩
  | some payload =>
    if payload_len = 0 ∨ allocator = false then ⟨none, frame_len⟩
    else
      let finNopcode := 0x82
      match select_len_form payload_len with
      | none => ⟨none, frame_len⟩
      | some (payload_len_small, len_size) =>
        let payload_offset := 2 + len_size + (if masked ≠ 0 then WS_MASK_SIZE else 0)
        let frame_size := (payload_offset + payload_len) % SIZE_MOD
        let data := zeroed ((frame_size + 1) % SIZE_MOD)
        let data := data.set 0 finNopcode
        let data :=
          if masked ≠ 0 then data.set 1 ((payload_len_small % 256) ||| 0x80)
          else data.set 1 ((payload_len_small % 256) &&& 0x7F)
        let payload_len := if payload_len_small = 126 then payload_len &&& 0xffff else payload_len
        let data :=
          if payload_len_small = 126 then store_htons data 2 (payload_len % 2 ^ 16) else data
        let payload_len :=
          if payload_len_small = 127 then payload_len &&& 0xffffffffffffffff else payload_len
        let data :=
          if payload_len_small = 127 then store_htonl data (2 + 4) (payload_len % 2 ^ 32) else data
        let data := memcpy data payload_offset payload 0 payload_len
        let data :=
          if masked ≠ 0 then
            mask_loop mask payload_offset payload_len
              (memcpy data (payload_offset - WS_MASK_SIZE) mask 0 WS_MASK_SIZE)
          else data
        ⟨some data, frame_len.map fun _ => frame_size⟩

/-! ### The layout of a frame, by region

These definitions describe the block `websocket_build_frame` returns; the theorems below show
that the function computes them. -/

/-- Size of the length extension for a payload of `n` bytes. -/
def len_size_of (n : Nat) : Nat :=
  if n ≤ 125 then 0 else if n ≤ 0xffff then 2 else 8

/-- Offset of the payload in a frame: two fixed bytes, the length extension, the mask key. -/
def header_len (masked : Int) (n : Nat) : Nat :=
  2 + len_size_of n + (if masked ≠ 0 then 4 else 0)

/-- Second byte of a frame: the 7-bit length code, with the mask bit when `masked`. -/
def len_byte (masked : Int) (n : Nat) : Nat :=
  (if n ≤ 125 then n else if n ≤ 0xffff then 126 else 127) + (if masked ≠ 0 then 0x80 else 0)

/-- Bytes of the length extension: none, 16 bits big-endian, or 4 zero bytes and 32 bits
big-endian. -/
def len_ext (n : Nat) : List Nat :=
  if n ≤ 125 then []
  else if n ≤ 0xffff then [n / 256 % 256, n % 256]
  else [0, 0, 0, 0, n / 2 ^ 24 % 256, n / 2 ^ 16 % 256, n / 2 ^ 8 % 256, n % 256]

/-- Bytes of the mask key as stored in a frame. -/
def key_bytes (masked : Int) (mask : List Nat) : List Nat :=
  if masked ≠ 0 then [rd mask 0, rd mask 1, rd mask 2, rd mask 3] else []

/-- Payload bytes as stored in a frame. -/
def body_bytes (masked : Int) (mask payload : List Nat) (n : Nat) : List Nat :=
  (List.range n).map fun i =>
    if masked ≠ 0 then (rd payload i ^^^ (rd mask (i % 4) &&& 0xff)) % 256 else rd payload i

/-- The whole block: header, payload and the spare zero byte behind them. -/
def frame_image (masked : Int) (mask payload : List Nat) (n : Nat) : List Nat :=
  [0x82, len_byte masked n] ++ len_ext n ++ key_bytes masked mask
    ++ body_bytes masked mask payload n ++ [0]

/-! ## `websocket_retrieve_payload` -/

/-- The unmasking loop of `websocket_retrieve_payload`:
`for (i = 0; i < len; i++) package[i] = data[i + packageHeadLen] ^ maskKey[i % 4];`. -/
def unmask_loop (data maskKey : List Nat) (packageHeadLen len : Nat) (package : List Nat) :
    List Nat :=
  (List.range len).foldl
    (fun pkg i => pkg.set i ((rd data (i + packageHeadLen) ^^^ rd maskKey (i % 4)) % 256)) package

/-- The header decoding of `websocket_retrieve_payload` (from the mask test to the end of the
`if (len == 126) ... else if (len == 127) ... else ...` chain): the triple
`(len, packageHeadLen, maskKey)`, or `none` where the source returns `NULL`. -/
def retrieve_header (data : List Nat) (dataLen : Nat) : Option (Nat × Nat × List Nat) :=
  let flagMask : Bool := decide (rd data 1 &&& 0x80 = 0x80)
  let count := if flagMask then 4 else 0
  let maskKey := [0, 0, 0, 0]
  let len := rd data 1 &&& 0x7F
  if len = 126 then
    if dataLen < 4 then none
    else
      some (load_ntohs data 2, 4 + count,
        if flagMask then memcpy maskKey 0 data 4 4 else maskKey)
  else if len = 127 then
    if dataLen < 10 then none
    else if rd data 2 ≠ 0 ∨ rd data 3 ≠ 0 ∨ rd data 4 ≠ 0 ∨ rd data 5 ≠ 0 then none
    else
      some (load_ntohl data 6, 10 + count,
        if flagMask then memcpy maskKey 0 data 10 4 else maskKey)
  else
    some (len, 2 + count, if flagMask then memcpy maskKey 0 data 2 4 else maskKey)

/-- The function `websocket_retrieve_payload(data, dataLen, allocator, payload_len)`. -/
def websocket_retrieve_payload (data : List Nat) (dataLen : Nat) (allocator : Bool)
    (payload_len : Option Nat) : WsResult :=
  if allocator = false then ⟨none, payload_len⟩
  else if dataLen < 2 then ⟨none, payload_len⟩
  else
    let _Opcode := rd data 0 &&& 0x0F
    let _flagFIN : Bool := decide (rd data 0 &&& 0x80 = 0x80)
    let flagMask : Bool := decide (rd data 1 &&& 0x80 = 0x80)
    match retrieve_header data dataLen with
    | none => ⟨none, payload_len⟩
    | some (len, packageHeadLen, maskKey) =>
      if dataLen < (len + packageHeadLen) % SIZE_MOD then ⟨none, payload_len⟩
      else
        let payload_len := payload_len.map fun _ => len
        let package := zeroed ((len + 1) % SIZE_MOD)
        let package :=
          if flagMask then unmask_loop data maskKey packageHeadLen len package
          else memcpy package 0 data packageHeadLen len
        ⟨some package, payload_len⟩

/-! ### The header a received frame declares

These two definitions follow the wording of the specification for a received frame, to be
compared with what `websocket_retrieve_payload` computes. -/

/-- Header length of the frame at `data`: 2, 4 or 10 bytes for the inline, 16-bit and 64-bit
length forms, and 4 more bytes of key when the mask bit is set. -/
def declared_header_len (data : List Nat) : Nat :=
  (if rd data 1 &&& 0x7F = 126 then 4 else if rd data 1 &&& 0x7F = 127 then 10 else 2)
    + (if rd data 1 &&& 0x80 = 0x80 then 4 else 0)

/-- Payload length the frame at `data` declares: the 7-bit code itself, or the 16-bit or
32-bit big-endian integer of the extension. -/
def declared_payload_len (data : List Nat) : Nat :=
  if rd data 1 &&& 0x7F = 126 then load_ntohs data 2
  else if rd data 1 &&& 0x7F = 127 then load_ntohl data 6
  else rd data 1 &&& 0x7F

/-- Offset at which the length field of the frame at `data` ends: 2, 4 or 10 for the inline,
16-bit and 64-bit length forms.  The mask key, when there is one, starts here. -/
def declared_key_offset (data : List Nat) : Nat :=
  if rd data 1 &&& 0x7F = 126 then 4 else if rd data 1 &&& 0x7F = 127 then 10 else 2

/-- Payload the frame at `data` carries: as many bytes as the header declares, each the byte
behind the key XOR-ed with the key byte of its index modulo 4 when the mask bit is set, and the
bytes behind the length field as they are when it is clear. -/
def declared_payload (data : List Nat) : List Nat :=
  (List.range (declared_payload_len data)).map fun i =>
    if rd data 1 &&& 0x80 = 0x80 then
      rd data (declared_key_offset data + 4 + i) ^^^ rd data (declared_key_offset data + i % 4)
    else rd data (declared_key_offset data + i)

/-! ### The bytes `websocket_retrieve_payload` reads -/

/-- The function `websocket_retrieve_payload` once more, with the list of the indices of `data`
it reads, in the order of the reads: `data[0]` twice and `data[1]` twice for the opcode, the
two flags and the length code; the bytes of the length extension (the `||` chain on bytes 2 to
5 stops at the first byte that is not zero); the 4 bytes `memcpy` takes for `maskKey`; and
`data[i + packageHeadLen]` for every `i < len`, by the loop or by `memcpy`. -/
def websocket_retrieve_payload_traced (data : List Nat) (dataLen : Nat) (allocator : Bool)
    (payload_len : Option Nat) : WsResult × List Nat :=
  if allocator = false then (⟨none, payload_len⟩, [])
  else if dataLen < 2 then (⟨none, payload_len⟩, [])
  else
    let flagMask : Bool := decide (rd data 1 &&& 0x80 = 0x80)
    let count := if flagMask then 4 else 0
    let maskKey := [0, 0, 0, 0]
    let len := rd data 1 &&& 0x7F
    let reads := [0, 0, 1, 1]
    let header : Option (Nat × Nat × List Nat) × List Nat :=
      if len = 126 then
        if dataLen < 4 then (none, reads)
        else
          (some (load_ntohs data 2, 4 + count,
              if flagMask then memcpy maskKey 0 data 4 4 else maskKey),
            reads ++ [2, 3] ++ (if flagMask then [4, 5, 6, 7] else []))
      else if len = 127 then
        if dataLen < 10 then (none, reads)
        else if rd data 2 ≠ 0 then (none, reads ++ [2])
        else if rd data 3 ≠ 0 then (none, reads ++ [2, 3])
        else if rd data 4 ≠ 0 then (none, reads ++ [2, 3, 4])
        else if rd data 5 ≠ 0 then (none, reads ++ [2, 3, 4, 5])
        else
          (some (load_ntohl data 6, 10 + count,
              if flagMask then memcpy maskKey 0 data 10 4 else maskKey),
            reads ++ [2, 3, 4, 5] ++ [6, 7, 8, 9] ++ (if flagMask then [10, 11, 12, 13] else []))
      else
        (some (len, 2 + count, if flagMask then memcpy maskKey 0 data 2 4 else maskKey),
          reads ++ (if flagMask then [2, 3, 4, 5] else []))
    match header with
    | (none, reads) => (⟨none, payload_len⟩, reads)
    | (some (len, packageHeadLen, maskKey), reads) =>
      if dataLen < (len + packageHeadLen) % SIZE_MOD then (⟨none, payload_len⟩, reads)
      else
        let payload_len := payload_len.map fun _ => len
        let package := zeroed ((len + 1) % SIZE_MOD)
        let package :=
          if flagMask then unmask_loop data maskKey packageHeadLen len package
          else memcpy package 0 data packageHeadLen len
        (⟨some package, payload_len⟩, reads ++ (List.range len).map fun i => i + packageHeadLen)

/-- The indices of `data` that `websocket_retrieve_payload` reads. -/
def websocket_retrieve_payload_reads (data : List Nat) (dataLen : Nat) (allocator : Bool) :
    List Nat :=
  (websocket_retrieve_payload_traced data dataLen allocator none).2

/-! ## `websocket_generate_sec_websocket_accept` -/

/-- The C string found at a `char *`: the bytes before the first NUL. -/
def cstr (s : List Nat) : List Nat := s.takeWhile (· ≠ 0)

/-- The value `strlen(s)`. -/
def strlen (s : List Nat) : Nat := (cstr s).length

/-- Buffer `dst` after `strcat(dst, src)`: the string of `src` and its NUL, copied to where the
string of `dst` ends. -/
def strcat (dst src : List Nat) : List Nat :=
  memcpy dst (strlen dst) (cstr src ++ [0]) 0 (strlen src + 1)

/-- The bytes of a string literal of the source, with its terminating NUL. -/
def c_literal (s : String) : List Nat := s.toList.map Char.toNat ++ [0]

/-- The macro `WEBSOCKET_GUID`. -/
def WEBSOCKET_GUID : List Nat := c_literal "258EAFA5-E914-47DA-95CA-C5AB0DC85B11"

/-- Modelled from the spec: part of SHA-1, the rotation of a 32-bit word to the left. -/
def rotl32 (x n : Nat) : Nat := ((x <<< n) ||| (x >>> (32 - n))) % 2 ^ 32

/-- Modelled from the spec: part of SHA-1, the `width` bytes of `v`, most significant first. -/
def be_bytes (width v : Nat) : List Nat :=
  (List.range width).map fun i => v / 2 ^ (8 * (width - 1 - i)) % 256

/-- Modelled from the spec: SHA-1 padding (FIPS 180-4, 5.1.1), a `0x80` byte, zero bytes up to
56 modulo 64, and the length of the message in bits as 64 bits big-endian. -/
def sha1_pad (msg : List Nat) : List Nat :=
  msg ++ [0x80] ++ List.replicate ((64 - (msg.length + 9) % 64) % 64) 0
    ++ be_bytes 8 (8 * msg.length)

/-- Modelled from the spec: part of SHA-1, the big-endian 32-bit words of a block. -/
def sha1_block_words : List Nat → List Nat
  | a :: b :: c :: d :: rest => (((a * 256 + b) * 256 + c) * 256 + d) :: sha1_block_words rest
  | _ => []

/-- Modelled from the spec: SHA-1 message schedule (FIPS 180-4, 6.1.2 step 1), kept with the
most recent word first: `k` more words
`W[t] = ROTL 1 (W[t-3] xor W[t-8] xor W[t-14] xor W[t-16])`. -/
def sha1_schedule : Nat → List Nat → List Nat
  | 0, w => w
  | k + 1, w =>
    sha1_schedule k (rotl32 (rd w 2 ^^^ rd w 7 ^^^ rd w 13 ^^^ rd w 15) 1 :: w)

/-- Modelled from the spec: part of SHA-1, the five working variables, and the five words of
the hash value. -/
structure Sha1State where
  a : Nat
  b : Nat
  c : Nat
  d : Nat
  e : Nat
deriving DecidableEq

/-- Modelled from the spec: SHA-1 round function `f_t` (FIPS 180-4, 4.1.1). -/
def sha1_f (t b c d : Nat) : Nat :=
  if t < 20 then (b &&& c) ||| ((b ^^^ 0xffffffff) &&& d)
  else if t < 40 then b ^^^ c ^^^ d
  else if t < 60 then (b &&& c) ||| (b &&& d) ||| (c &&& d)
  else b ^^^ c ^^^ d

/-- Modelled from the spec: SHA-1 round constant `K_t` (FIPS 180-4, 4.2.1). -/
def sha1_k (t : Nat) : Nat :=
  if t < 20 then 0x5A827999 else if t < 40 then 0x6ED9EBA1
  else if t < 60 then 0x8F1BBCDC else 0xCA62C1D6

/-- Modelled from the spec: the rounds of SHA-1 over the schedule `w`, from round `t` on
(FIPS 180-4, 6.1.2 step 3). -/
def sha1_rounds : List Nat → Nat → Sha1State → Sha1State
  | [], _, s => s
  | w :: ws, t, s =>
    sha1_rounds ws (t + 1)
      ⟨(rotl32 s.a 5 + sha1_f t s.b s.c s.d + s.e + sha1_k t + w) % 2 ^ 32,
        s.a, rotl32 s.b 30, s.c, s.d⟩

/-- Modelled from the spec: one block of SHA-1, that is schedule, 80 rounds, and the sum with
the previous hash value. -/
def sha1_compress (h : Sha1State) (block : List Nat) : Sha1State :=
  let w := (sha1_schedule 64 (sha1_block_words block).reverse).reverse
  let s := sha1_rounds w 0 h
  ⟨(h.a + s.a) % 2 ^ 32, (h.b + s.b) % 2 ^ 32, (h.c + s.c) % 2 ^ 32, (h.d + s.d) % 2 ^ 32,
    (h.e + s.e) % 2 ^ 32⟩

/-- Modelled from the spec: SHA-1 over `k` consecutive blocks of 64 bytes. -/
def sha1_blocks : Nat → Sha1State → List Nat → Sha1State
  | 0, h, _ => h
  | k + 1, h, data => sha1_blocks k (sha1_compress h (data.take 64)) (data.drop 64)

/-- Modelled from the spec: the digest left in `sha1_hash` by the calls `mbedtls_sha1_init`,
`mbedtls_sha1_starts`, `mbedtls_sha1_update(input)`, `mbedtls_sha1_finish` of the mbedtls
library, which is not part of the repository.  The spec names the function SHA-1; this is
SHA-1 as FIPS 180-4 defines it. -/
def mbedtls_sha1 (input : List Nat) : List Nat :=
  let padded := sha1_pad input
  let h := sha1_blocks (padded.length / 64)
    ⟨0x67452301, 0xEFCDAB89, 0x98BADCFE, 0x10325476, 0xC3D2E1F0⟩ padded
  be_bytes 4 h.a ++ be_bytes 4 h.b ++ be_bytes 4 h.c ++ be_bytes 4 h.d ++ be_bytes 4 h.e

/-- Modelled from the spec: the macro `SHA_DIGEST_LENGTH`, which no file of the repository at
hand defines; 20, the size in bytes of a SHA-1 digest. -/
def SHA_DIGEST_LENGTH : Nat := 20

/-- Modelled from the spec: the base64 alphabet (RFC 4648, table 1). -/
def base64_alphabet : List Nat :=
  "ABCDEFGHIJKLMNOPQRSTUVWXYZabcdefghijklmnopqrstuvwxyz0123456789+/".toList.map Char.toNat

/-- Modelled from the spec: part of base64, the character of a 6-bit value. -/
def base64_char (v : Nat) : Nat := rd base64_alphabet (v % 64)

/-- Modelled from the spec: the characters `mbedtls_base64_encode` of the mbedtls library, which
is not part of the repository, writes for the bytes `src`.  The spec names the function base64;
this is base64 as RFC 4648 defines it, with `=` padding. -/
def mbedtls_base64_encode : List Nat → List Nat
  | a :: b :: c :: rest =>
    base64_char (a / 4) :: base64_char (a % 4 * 16 + b / 16) ::
      base64_char (b % 16 * 4 + c / 64) :: base64_char (c % 64) :: mbedtls_base64_encode rest
  | [a, b] =>
    [base64_char (a / 4), base64_char (a % 4 * 16 + b / 16), base64_char (b % 16 * 4), 61]
  | [a] => [base64_char (a / 4), base64_char (a % 4 * 16), 61, 61]
  | [] => []

/-- The function `websocket_generate_sec_websocket_accept(sec_websocket_key, allocator)`: the
returned block, or `none` for `NULL`.  The first call of `mbedtls_base64_encode`, with no
buffer, stores in `b64_str_len` the size the text needs with its NUL; the second call writes the
text and the NUL into the block of `b64_str_len + 1` bytes, whose last byte the function has
set to zero. -/
def websocket_generate_sec_websocket_accept (sec_websocket_key : Option (List Nat))
    (allocator : Bool) : Option (List Nat) :=
  match sec_websocket_key with
  | none => none
  | some sec_websocket_key =>
    if strlen sec_websocket_key = 0 ∨ allocator = false then none
    else
      let concatenated_val_len := strlen sec_websocket_key + strlen WEBSOCKET_GUID
      let concatenated_val := zeroed (concatenated_val_len + 1)
      let concatenated_val := strcat concatenated_val sec_websocket_key
      let concatenated_val := strcat concatenated_val WEBSOCKET_GUID
      let sha1_hash :=
        (mbedtls_sha1 (concatenated_val.take concatenated_val_len)).take SHA_DIGEST_LENGTH
      let b64 := mbedtls_base64_encode sha1_hash
      let b64_str_len := b64.length + 1
      let b64_str := zeroed (b64_str_len + 1)
      some (memcpy b64_str 0 (b64 ++ [0]) 0 b64_str_len)

end WsTlsBasic

/-! ## Configuration loading of the client, file `src/client/main.c`

Conventions of the embedding: a `char *` is an `Option String` (`none` for `NULL`), a key is a
`String`; a call that ends in `usage()`, which prints and calls `exit(1)`, gives `none`.  The
json-c library, `getopt` and the helper `string_safe_assign` are not part of the files at hand:
the functions take what those return as arguments. -/

namespace ClientMain

/-- A value of the json-c library, by its `json_type`.  For `int` the field is the `int` that
`json_object_get_int` returns, for `string` the text that `json_object_get_string` returns. -/
inductive json_object where
  | null
  | boolean (b : Bool)
  | double (text : String)
  | int (v : Int)
  | object (members : List (String × json_object))
  | array (items : List json_object)
  | string (s : String)

/-- The type `struct json_object_iter`: key and value of the member the loop is at. -/
structure json_object_iter where
  key : String
  val : json_object

/-- The type `struct server_config` of `src/ssr_executive.h`.  The ports are `unsigned short`,
`idle_timeout` is `unsigned int`. -/
structure server_config where
  listen_host : Option String
  listen_port : Nat
  remote_host : Option String
  remote_port : Nat
  password : Option String
  method : Option String
  protocol : Option String
  protocol_param : Option String
  obfs : Option String
  obfs_param : Option String
  over_tls_enable : Bool
  over_tls_server_domain : Option String
  over_tls_path : Option String
  over_tls_root_cert_file : Option String
  udp : Bool
  idle_timeout : Nat
  remarks : Option String
deriving DecidableEq

/-- The macro `DEFAULT_CONF_PATH`. -/
def DEFAULT_CONF_PATH : String := "/etc/ssr-native/config.json"

/-- The macro `SECONDS_PER_MINUTE`. -/
def SECONDS_PER_MINUTE : Int := 1000

/-- The macro `DEFAULT_BIND_HOST`. -/
def DEFAULT_BIND_HOST : String := "127.0.0.1"

/-- The macro `DEFAULT_BIND_PORT`. -/
def DEFAULT_BIND_PORT : Int := 1080

/-- The macro `DEFAULT_IDLE_TIMEOUT`. -/
def DEFAULT_IDLE_TIMEOUT : Int := 60 * SECONDS_PER_MINUTE

/-- Conversion of an `int` to `unsigned short`. -/
def to_unsigned_short (v : Int) : Nat := (v % 2 ^ 16).toNat

/-- Conversion of an `int` to `unsigned int`.  Applied to a product of two `int`, it takes the
product to wrap where C leaves the overflow undefined. -/
def to_unsigned_int (v : Int) : Nat := (v % 2 ^ 32).toNat

/-- The function `config_create()`: a zeroed `struct server_config` with the default host,
port and idle timeout.  The argument `string_safe_assign` stands for the helper of that name. -/
def config_create (string_safe_assign : Option String → String → Option String) :
    server_config :=
  { listen_host := string_safe_assign none DEFAULT_BIND_HOST
    listen_port := to_unsigned_short DEFAULT_BIND_PORT
    remote_host := none
    remote_port := 0
    password := none
    method := none
    protocol := none
    protocol_param := none
    obfs := none
    obfs_param := none
    over_tls_enable := false
    over_tls_server_domain := none
    over_tls_path := none
    over_tls_root_cert_file := none
    udp := false
    idle_timeout := to_unsigned_int DEFAULT_IDLE_TIMEOUT
    remarks := none }

/-- The function `json_iter_extract_string(key, iter, value)`, for a key, an iterator and a
destination that are not `NULL`: `some s` when it returns `true` and stores `s` in `*value`,
`none` when it returns `false`. -/
def json_iter_extract_string (key : String) (iter : json_object_iter) : Option String :=
  if iter.key ≠ key then none
  else
    match iter.val with
    | json_object.string s => some s
    | _ => none

/-- The function `json_iter_extract_int(key, iter, value)`, for a key, an iterator and a
destination that are not `NULL`: `some v` when it returns `true` and stores `v` in `*value`,
`none` when it returns `false`. -/
def json_iter_extract_int (key : String) (iter : json_object_iter) : Option Int :=
  if iter.key ≠ key then none
  else
    match iter.val with
    | json_object.int v => some v
    | _ => none

/-- The body of the loop `json_object_object_foreachC(jso, iter)` in `parse_config_file`: the
configuration after the member `iter`. -/
def parse_config_member (string_safe_assign : Option String → String → Option String)
    (cf : server_config) (iter : json_object_iter) : server_config :=
  match json_iter_extract_string "local_address" iter with
  | some obj_str => { cf with listen_host := string_safe_assign cf.listen_host obj_str }
  | none =>
  match json_iter_extract_int "local_port" iter with
  | some obj_int => { cf with listen_port := to_unsigned_short obj_int }
  | none =>
  match json_iter_extract_string "server" iter with
  | some obj_str => { cf with remote_host := string_safe_assign cf.remote_host obj_str }
  | none =>
  match json_iter_extract_int "server_port" iter with
  | some obj_int => { cf with remote_port := to_unsigned_short obj_int }
  | none =>
  match json_iter_extract_string "password" iter with
  | some obj_str => { cf with password := string_safe_assign cf.password obj_str }
  | none =>
  match json_iter_extract_string "method" iter with
  | some obj_str => { cf with method := string_safe_assign cf.method obj_str }
  | none =>
  match json_iter_extract_string "protocol" iter with
  | some obj_str => { cf with protocol := string_safe_assign cf.protocol obj_str }
  | none =>
  match json_iter_extract_string "protocol_param" iter with
  | some obj_str => { cf with protocol_param := string_safe_assign cf.protocol_param obj_str }
  | none =>
  match json_iter_extract_string "obfs" iter with
  | some obj_str => { cf with obfs := string_safe_assign cf.obfs obj_str }
  | none =>
  match json_iter_extract_string "obfs_param" iter with
  | some obj_str => { cf with obfs_param := string_safe_assign cf.obfs_param obj_str }
  | none =>
  match json_iter_extract_int "timeout" iter with
  | some obj_int => { cf with idle_timeout := to_unsigned_int (obj_int * SECONDS_PER_MINUTE) }
  | none => cf

/-- The function `parse_config_file(file, cf)`: the value it returns and the configuration
after the call.  The argument `json_object_from_file` gives, for a path, the members of the
JSON object in that file, in the order of the iteration, and `none` when the json-c function
of that name returns `NULL`.  The source iterates over the value without a test of its type, so
a file that holds a value other than an object is outside the model. -/
def parse_config_file
    (json_object_from_file : String → Option (List (String × json_object)))
    (string_safe_assign : Option String → String → Option String)
    (file : String) (cf : server_config) : Bool × server_config :=
  match json_object_from_file file with
  | none => (false, cf)
  | some jso =>
    (true, jso.foldl (fun cf m => parse_config_member string_safe_assign cf ⟨m.1, m.2⟩) cf)

/-- The function `parse_opts(cf, argc, argv)`.  The list `opts` holds what the successive
calls `getopt(argc, argv, "c:h")` return before `-1`, each with the `optarg` of that call.
The result is the configuration after the loop, and `none` when the process ends in
`usage()`. -/
def parse_opts
    (json_object_from_file : String → Option (List (String × json_object)))
    (string_safe_assign : Option String → String → Option String)
    (cf : server_config) : List (Char × String) → Option server_config
  | [] => some cf
  | (opt, optarg) :: rest =>
    if opt = 'c' then
      match parse_config_file json_object_from_file string_safe_assign optarg cf with
      | (false, _) => none
      | (true, cf) => parse_opts json_object_from_file string_safe_assign cf rest
    else none

/-- The keys `parse_config_file` compares a member with. -/
def recognized_keys : List String :=
  ["local_address", "local_port", "server", "server_port", "password", "method", "protocol",
    "protocol_param", "obfs", "obfs_param", "timeout"]

end ClientMain

namespace WsTlsBasic

/-! ## Reading buffers after the memory primitives -/

theorem rd_of_le (p : List Nat) (i : Nat) (h : p.length ≤ i) : rd p i = 0 := by
  simp [rd, List.getElem?_eq_none h]

theorem rd_eq_getElem (p : List Nat) (i : Nat) (h : i < p.length) : rd p i = p[i] := by
  simp [rd, List.getElem?_eq_getElem h]

theorem rd_lt_of_isBytes {p : List Nat} (hp : IsBytes p) (i : Nat) : rd p i < 256 := by
  by_cases h : i < p.length
  · rw [rd_eq_getElem p i h]; exact hp _ (List.getElem_mem h)
  · rw [rd_of_le p i (by omega)]; decide

theorem eq_of_rd {a b : List Nat} (hl : a.length = b.length)
    (h : ∀ j, j < a.length → rd a j = rd b j) : a = b := by
  apply List.ext_getElem hl
  intro n h₁ h₂
  have := h n h₁
  rwa [rd_eq_getElem a n h₁, rd_eq_getElem b n h₂] at this

@[simp] theorem length_zeroed (n : Nat) : (zeroed n).length = n := by simp [zeroed]

@[simp] theorem rd_zeroed (n j : Nat) : rd (zeroed n) j = 0 := by
  simp only [rd, zeroed, List.getD_eq_getElem?_getD, List.getElem?_replicate]
  split <;> rfl

theorem rd_set (p : List Nat) (i v j : Nat) :
    rd (p.set i v) j = if j = i ∧ i < p.length then v else rd p j := by
  simp only [rd, List.getD_eq_getElem?_getD, List.getElem?_set]
  by_cases h : i = j
  · subst h
    by_cases h2 : i < p.length
    · simp [h2]
    · simp [h2, List.getElem?_eq_none (Nat.le_of_not_lt h2)]
  · have : ¬ j = i := fun e => h e.symm
    simp [h, this]

@[simp] theorem length_memcpy (dst : List Nat) (doff : Nat) (src : List Nat) (soff n : Nat) :
    (memcpy dst doff src soff n).length = dst.length := by
  simp [memcpy]

theorem rd_memcpy (dst : List Nat) (doff : Nat) (src : List Nat) (soff n j : Nat) :
    rd (memcpy dst doff src soff n) j =
      if doff ≤ j ∧ j < doff + n ∧ j < dst.length then rd src (soff + (j - doff)) else rd dst j := by
  by_cases hj : j < dst.length
  · rw [rd_eq_getElem _ _ (by simpa using hj)]
    simp only [memcpy, List.getElem_map, List.getElem_range]
    by_cases h : doff ≤ j ∧ j < doff + n
    · rw [if_pos h, if_pos ⟨h.1, h.2, hj⟩]
    · rw [if_neg h, if_neg (fun h2 => h ⟨h2.1, h2.2.1⟩)]
  · rw [rd_of_le _ _ (by simpa using hj), if_neg (fun h2 => hj h2.2.2), rd_of_le _ _ (by omega)]

@[simp] theorem length_store_htons (p : List Nat) (off v : Nat) :
    (store_htons p off v).length = p.length := by simp [store_htons]

@[simp] theorem length_store_htonl (p : List Nat) (off v : Nat) :
    (store_htonl p off v).length = p.length := by simp [store_htonl]

@[simp] theorem length_mask_loop (mask : List Nat) (off n : Nat) (data : List Nat) :
    (mask_loop mask off n data).length = data.length := by
  unfold mask_loop
  induction n with
  | zero => simp
  | succ k ih => simp [List.range_succ, ih]

theorem rd_mask_loop (mask : List Nat) (off n : Nat) (data : List Nat) (j : Nat) :
    rd (mask_loop mask off n data) j =
      if off ≤ j ∧ j < off + n ∧ j < data.length then
        (rd data j ^^^ (rd mask ((j - off) % WS_MASK_SIZE) &&& 0xff)) % 256
      else rd data j := by
  induction n generalizing j with
  | zero =>
    have : ¬ (off ≤ j ∧ j < off + 0 ∧ j < data.length) := by omega
    rw [if_neg this]
    simp [mask_loop]
  | succ k ih =>
    have hlen := length_mask_loop mask off k data
    unfold mask_loop at ih hlen ⊢
    rw [List.range_succ, List.foldl_append]
    simp only [List.foldl_cons, List.foldl_nil, rd_set, hlen, ih]
    by_cases h1 : j = off + k
    · subst h1
      have e : off + k - off = k := by omega
      by_cases h2 : off + k < data.length
      · have h3 : ¬ (off ≤ off + k ∧ off + k < off + k ∧ off + k < data.length) := by omega
        have h4 : off ≤ off + k ∧ off + k < off + (k + 1) ∧ off + k < data.length := by omega
        rw [if_pos ⟨rfl, h2⟩, if_neg h3, if_pos h4, e]
      · have h3 : ¬ (off ≤ off + k ∧ off + k < off + k ∧ off + k < data.length) := by omega
        have h4 : ¬ (off ≤ off + k ∧ off + k < off + (k + 1) ∧ off + k < data.length) := by omega
        rw [if_neg (fun h => h2 h.2), if_neg h3, if_neg h4]
    · by_cases h3 : off ≤ j ∧ j < off + k ∧ j < data.length
      · rw [if_neg (fun h => h1 h.1), if_pos h3, if_pos ⟨h3.1, by omega, h3.2.2⟩]
      · rw [if_neg (fun h => h1 h.1), if_neg h3, if_neg (fun h => h3 ⟨h.1, by omega, h.2.2⟩)]

@[simp] theorem length_unmask_loop (data maskKey : List Nat) (hl n : Nat) (package : List Nat) :
    (unmask_loop data maskKey hl n package).length = package.length := by
  unfold unmask_loop
  induction n with
  | zero => simp
  | succ k ih => simp [List.range_succ, ih]

theorem rd_unmask_loop (data maskKey : List Nat) (hl n : Nat) (package : List Nat) (j : Nat) :
    rd (unmask_loop data maskKey hl n package) j =
      if j < n ∧ j < package.length then (rd data (j + hl) ^^^ rd maskKey (j % 4)) % 256
      else rd package j := by
  induction n generalizing j with
  | zero =>
    have : ¬ (j < 0 ∧ j < package.length) := by omega
    rw [if_neg this]
    simp [unmask_loop]
  | succ k ih =>
    have hlen := length_unmask_loop data maskKey hl k package
    unfold unmask_loop at ih hlen ⊢
    rw [List.range_succ, List.foldl_append]
    simp only [List.foldl_cons, List.foldl_nil, rd_set, hlen, ih]
    by_cases h1 : j = k
    · subst h1
      by_cases h2 : j < package.length
      · rw [if_pos ⟨rfl, h2⟩, if_pos ⟨by omega, h2⟩]
      · rw [if_neg (fun h => h2 h.2), if_neg (fun h => h2 h.2), if_neg (fun h => h2 h.2)]
    · by_cases h3 : j < k ∧ j < package.length
      · rw [if_neg (fun h => h1 h.1), if_pos h3, if_pos ⟨by omega, h3.2⟩]
      · rw [if_neg (fun h => h1 h.1), if_neg h3, if_neg (fun h => h3 ⟨by omega, h.2⟩)]

theorem rd_store_htons (p : List Nat) (off v j : Nat) :
    rd (store_htons p off v) j =
      if j = off + 1 ∧ off + 1 < p.length then v % 256
      else if j = off ∧ off < p.length then v / 256 % 256 else rd p j := by
  simp [store_htons, rd_set]

theorem rd_store_htonl (p : List Nat) (off v j : Nat) :
    rd (store_htonl p off v) j =
      if j = off + 3 ∧ off + 3 < p.length then v % 256
      else if j = off + 2 ∧ off + 2 < p.length then v / 2 ^ 8 % 256
      else if j = off + 1 ∧ off + 1 < p.length then v / 2 ^ 16 % 256
      else if j = off ∧ off < p.length then v / 2 ^ 24 % 256 else rd p j := by
  simp [store_htonl, rd_set]

theorem rd_cons_zero (a : Nat) (l : List Nat) : rd (a :: l) 0 = a := rfl

theorem rd_cons_succ (a : Nat) (l : List Nat) (j : Nat) : rd (a :: l) (j + 1) = rd l j := rfl

theorem rd_append_right (a b : List Nat) (j : Nat) : rd (a ++ b) (a.length + j) = rd b j := by
  simp [rd, List.getElem?_append_right]

theorem rd_append_left (a b : List Nat) (j : Nat) (h : j < a.length) :
    rd (a ++ b) j = rd a j := by
  simp [rd, List.getElem?_append_left h]

theorem length_body_bytes (masked : Int) (mask P : List Nat) (n : Nat) :
    (body_bytes masked mask P n).length = n := by
  simp [body_bytes]

theorem rd_body_bytes (masked : Int) (mask P : List Nat) (n i : Nat) :
    rd (body_bytes masked mask P n ++ [0]) i =
      if i < n then
        (if masked ≠ 0 then (rd P i ^^^ (rd mask (i % 4) &&& 0xff)) % 256 else rd P i)
      else 0 := by
  by_cases h : i < n
  · rw [if_pos h, rd_append_left _ _ _ (by rw [length_body_bytes]; exact h),
      rd_eq_getElem _ _ (by rw [length_body_bytes]; exact h)]
    simp [body_bytes]
  · rw [if_neg h]
    by_cases h2 : i = n
    · have := rd_append_right (body_bytes masked mask P n) [0] 0
      rw [length_body_bytes] at this
      rw [h2]; exact this
    · exact rd_of_le _ _ (by simp [length_body_bytes]; omega)

/-- Bit arithmetic on the 7-bit length code and the mask bit. -/
theorem bits_small : ∀ x, x < 128 →
    (x % 256 ||| 128 = x + 128) ∧ (x % 256 &&& 127 = x) ∧ ((x + 128) &&& 128 = 128) ∧
    ((x + 128) &&& 127 = x) ∧ (x &&& 128 = 0) ∧ (x &&& 127 = x) := by
  decide

theorem and_size_max (n : Nat) (h : n < 2 ^ 64) : n &&& 18446744073709551615 = n := by
  have := Nat.and_pow_two_sub_one_eq_mod n 64
  norm_num at this
  rw [this]; omega

theorem and_0xffff (n : Nat) (h : n ≤ 65535) : n &&& 65535 = n := by
  have := Nat.and_pow_two_sub_one_eq_mod n 16
  norm_num at this
  rw [this]; omega

theorem build_frame_plain_inline (masked : Int) (P mask : List Nat) (n : Nat) (fl : Option Nat)
    (hmk : masked = 0) (h0 : n ≠ 0) (h2 : n ≤ 125) :
    websocket_build_frame masked (some P) n true fl mask
      = ⟨some (frame_image masked mask P n), fl.map fun _ => 2 + n⟩ := by
  subst hmk
  have hm1 : (2 + n) % SIZE_MOD = 2 + n := Nat.mod_eq_of_lt (by unfold SIZE_MOD; omega)
  have hm2 : (2 + n + 1) % SIZE_MOD = 2 + n + 1 :=
    Nat.mod_eq_of_lt (by unfold SIZE_MOD; omega)
  have c1 : n ≤ 125 := by omega
  have c2 : n ≤ 65535 := by omega
  have c126 : ¬ n = 126 := by omega
  have c127 : ¬ n = 127 := by omega
  have ha := and_size_max n (by omega)
  obtain ⟨b1, b2, -⟩ := bits_small n (by omega)
  have hsel : select_len_form n = some (n, 0) := by
    simp [select_len_form, c1, c2]
  simp only [websocket_build_frame, hsel, h0, c126, c127, ha, WS_MASK_SIZE, if_true, if_false,
    false_or, ne_eq, not_true_eq_false, not_false_eq_true, reduceCtorEq, Nat.reduceAdd,
    Nat.reduceSub, Nat.reducePow, Nat.add_zero, hm1, hm2]
  congr 2
  apply eq_of_rd
  · simp [frame_image, len_ext, c1, c2, key_bytes, body_bytes]; omega
  · intro j hj
    simp only [length_memcpy, List.length_set, length_zeroed, length_mask_loop,
      length_store_htonl, length_store_htons] at hj
    simp only [rd_mask_loop, rd_memcpy, rd_set, rd_zeroed, rd_store_htonl, rd_store_htons,
      length_memcpy, List.length_set, length_zeroed, length_store_htonl, length_store_htons]
    simp only [frame_image, len_ext, key_bytes, c1, c2, if_true, ne_eq, not_true_eq_false,
      if_false, not_false_eq_true,
      List.append_nil, List.cons_append, List.nil_append, List.append_assoc]
    by_cases hlt : j < 2
    · interval_cases j <;>
        simp [rd_cons_zero, rd_cons_succ, len_byte, c1, c2, b1, b2]
    · obtain ⟨i, rfl⟩ : ∃ i, j = i + 2 := ⟨j - 2, by omega⟩
      simp only [rd_cons_succ, rd_body_bytes, Nat.zero_add, Nat.add_sub_cancel, WS_MASK_SIZE]
      have hA : (2 ≤ i + 2 ∧ i + 2 < 2 + n ∧ i + 2 < 2 + n + 1) ↔ i < n := by
        omega
      by_cases hi : i < n
      · simp only [hA, hi, if_true, if_false, ne_eq, not_true_eq_false]
      · simp only [hA, hi, if_true, if_false, ne_eq, not_true_eq_false]
        simp

theorem build_frame_plain_ext16 (masked : Int) (P mask : List Nat) (n : Nat) (fl : Option Nat)
    (hmk : masked = 0) (h0 : n ≠ 0) (h1 : 125 < n) (h2 : n ≤ 65535) :
    websocket_build_frame masked (some P) n true fl mask
      = ⟨some (frame_image masked mask P n), fl.map fun _ => 4 + n⟩ := by
  subst hmk
  have hm1 : (4 + n) % SIZE_MOD = 4 + n := Nat.mod_eq_of_lt (by unfold SIZE_MOD; omega)
  have hm2 : (4 + n + 1) % SIZE_MOD = 4 + n + 1 :=
    Nat.mod_eq_of_lt (by unfold SIZE_MOD; omega)
  have c1 : ¬ n ≤ 125 := by omega
  have c2 : n ≤ 65535 := by omega
  have c126 : 126 = 126 := by omega
  have c127 : ¬ 126 = 127 := by omega
  have ha := and_size_max n (by omega)
  have hb := and_0xffff n h2
  have hb2 : n % 65536 = n := by omega
  obtain ⟨b1, b2, -⟩ := bits_small 126 (by decide)
  have hsel : select_len_form n = some (126, 2) := by
    simp [select_len_form, c1, c2]
  simp only [websocket_build_frame, hsel, h0, c126, c127, ha, hb, hb2, WS_MASK_SIZE, if_true, if_false,
    false_or, ne_eq, not_true_eq_false, not_false_eq_true, reduceCtorEq, Nat.reduceAdd,
    Nat.reduceSub, Nat.reducePow, Nat.add_zero, hm1, hm2]
  congr 2
  apply eq_of_rd
  · simp [frame_image, len_ext, c1, c2, key_bytes, body_bytes]; omega
  · intro j hj
    simp only [length_memcpy, List.length_set, length_zeroed, length_mask_loop,
      length_store_htonl, length_store_htons] at hj
    simp only [rd_mask_loop, rd_memcpy, rd_set, rd_zeroed, rd_store_htonl, rd_store_htons,
      length_memcpy, List.length_set, length_zeroed, length_store_htonl, length_store_htons]
    simp only [frame_image, len_ext, key_bytes, c1, c2, if_true, ne_eq, not_true_eq_false,
      if_false, not_false_eq_true,
      List.append_nil, List.cons_append, List.nil_append, List.append_assoc]
    by_cases hlt : j < 4
    · interval_cases j <;>
        simp [rd_cons_zero, rd_cons_succ, len_byte, c1, c2, b1, b2] <;>
        omega
    · obtain ⟨i, rfl⟩ : ∃ i, j = i + 4 := ⟨j - 4, by omega⟩
      simp only [rd_cons_succ, rd_body_bytes, Nat.zero_add, Nat.add_sub_cancel, WS_MASK_SIZE]
      have hA : (4 ≤ i + 4 ∧ i + 4 < 4 + n ∧ i + 4 < 4 + n + 1) ↔ i < n := by
        omega
      by_cases hi : i < n
      · simp only [hA, hi, if_true, if_false, ne_eq, not_true_eq_false]
      · simp only [hA, hi, if_true, if_false, ne_eq, not_true_eq_false]
        simp

theorem build_frame_plain_ext64 (masked : Int) (P mask : List Nat) (n : Nat) (fl : Option Nat)
    (hmk : masked = 0) (h0 : n ≠ 0) (h1 : 65535 < n) (h2 : n ≤ PTRDIFF_MAX) :
    websocket_build_frame masked (some P) n true fl mask
      = ⟨some (frame_image masked mask P n), fl.map fun _ => 10 + n⟩ := by
  subst hmk
  unfold PTRDIFF_MAX at h2
  have hm1 : (10 + n) % SIZE_MOD = 10 + n := Nat.mod_eq_of_lt (by unfold SIZE_MOD; omega)
  have hm2 : (10 + n + 1) % SIZE_MOD = 10 + n + 1 :=
    Nat.mod_eq_of_lt (by unfold SIZE_MOD; omega)
  have c1 : ¬ n ≤ 125 := by omega
  have c2 : ¬ n ≤ 65535 := by omega
  have c126 : ¬ 127 = 126 := by omega
  have c127 : 127 = 127 := by omega
  have ha := and_size_max n (by omega)
  have hd : ∀ k, k ≤ 24 → n % 4294967296 / 2 ^ k % 256 = n / 2 ^ k % 256 := by
    intro k hk
    interval_cases k <;> omega
  have hd0 : n % 4294967296 % 256 = n % 256 := by omega
  obtain ⟨b1, b2, -⟩ := bits_small 127 (by decide)
  have hsel : select_len_form n = some (127, 8) := by
    simp [select_len_form, c1, c2]; omega
  simp only [websocket_build_frame, hsel, h0, c126, c127, ha, WS_MASK_SIZE, if_true, if_false,
    false_or, ne_eq, not_true_eq_false, not_false_eq_true, reduceCtorEq, Nat.reduceAdd,
    Nat.reduceSub, Nat.reducePow, Nat.add_zero, hm1, hm2]
  congr 2
  apply eq_of_rd
  · simp [frame_image, len_ext, c1, c2, key_bytes, body_bytes]; omega
  · intro j hj
    simp only [length_memcpy, List.length_set, length_zeroed, length_mask_loop,
      length_store_htonl, length_store_htons] at hj
    simp only [rd_mask_loop, rd_memcpy, rd_set, rd_zeroed, rd_store_htonl, rd_store_htons,
      length_memcpy, List.length_set, length_zeroed, length_store_htonl, length_store_htons]
    simp only [frame_image, len_ext, key_bytes, c1, c2, if_true, ne_eq, not_true_eq_false,
      if_false, not_false_eq_true,
      List.append_nil, List.cons_append, List.nil_append, List.append_assoc]
    by_cases hlt : j < 10
    · interval_cases j <;>
        simp [rd_cons_zero, rd_cons_succ, len_byte, c1, c2, b1, b2, hd, hd0] <;>
        first | omega | (rw [if_pos (by omega)]; omega)
    · obtain ⟨i, rfl⟩ : ∃ i, j = i + 10 := ⟨j - 10, by omega⟩
      simp only [rd_cons_succ, rd_body_bytes, Nat.zero_add, Nat.add_sub_cancel, WS_MASK_SIZE]
      have hA : (10 ≤ i + 10 ∧ i + 10 < 10 + n ∧ i + 10 < 10 + n + 1) ↔ i < n := by
        omega
      by_cases hi : i < n
      · simp only [hA, hi, if_true, if_false, ne_eq, not_true_eq_false]
      · simp only [hA, hi, if_true, if_false, ne_eq, not_true_eq_false]
        simp

theorem build_frame_masked_inline (masked : Int) (P mask : List Nat) (n : Nat) (fl : Option Nat)
    (hmk : masked ≠ 0) (h0 : n ≠ 0) (h2 : n ≤ 125) :
    websocket_build_frame masked (some P) n true fl mask
      = ⟨some (frame_image masked mask P n), fl.map fun _ => 6 + n⟩ := by
  have hm1 : (6 + n) % SIZE_MOD = 6 + n := Nat.mod_eq_of_lt (by unfold SIZE_MOD; omega)
  have hm2 : (6 + n + 1) % SIZE_MOD = 6 + n + 1 :=
    Nat.mod_eq_of_lt (by unfold SIZE_MOD; omega)
  have c1 : n ≤ 125 := by omega
  have c2 : n ≤ 65535 := by omega
  have c126 : ¬ n = 126 := by omega
  have c127 : ¬ n = 127 := by omega
  have ha := and_size_max n (by omega)
  obtain ⟨b1, b2, -⟩ := bits_small n (by omega)
  have hsel : select_len_form n = some (n, 0) := by
    simp [select_len_form, c1, c2]
  simp only [websocket_build_frame, hsel, h0, c126, c127, hmk, ha, WS_MASK_SIZE, if_true, if_false,
    false_or, ne_eq, not_true_eq_false, not_false_eq_true, reduceCtorEq, Nat.reduceAdd,
    Nat.reduceSub, Nat.reducePow, Nat.add_zero, hm1, hm2]
  congr 2
  apply eq_of_rd
  · simp [frame_image, len_ext, c1, c2, key_bytes, body_bytes, hmk]; omega
  · intro j hj
    simp only [length_memcpy, List.length_set, length_zeroed, length_mask_loop,
      length_store_htonl, length_store_htons] at hj
    simp only [rd_mask_loop, rd_memcpy, rd_set, rd_zeroed, rd_store_htonl, rd_store_htons,
      length_memcpy, List.length_set, length_zeroed, length_store_htonl, length_store_htons]
    simp only [frame_image, len_ext, key_bytes, c1, c2, if_true, ne_eq, not_true_eq_false,
      if_false, hmk, not_false_eq_true,
      List.append_nil, List.cons_append, List.nil_append, List.append_assoc]
    by_cases hlt : j < 6
    · interval_cases j <;>
        simp [rd_cons_zero, rd_cons_succ, len_byte, c1, c2, b1, b2, hmk] <;>
        omega
    · obtain ⟨i, rfl⟩ : ∃ i, j = i + 6 := ⟨j - 6, by omega⟩
      simp only [rd_cons_succ, rd_body_bytes, Nat.zero_add, Nat.add_sub_cancel, WS_MASK_SIZE]
      have hA : (6 ≤ i + 6 ∧ i + 6 < 6 + n ∧ i + 6 < 6 + n + 1) ↔ i < n := by
        omega
      have hB : ¬ (2 ≤ i + 6 ∧ i + 6 < 2 + 4 ∧ i + 6 < 6 + n + 1) := by omega
      by_cases hi : i < n
      · simp only [hA, hB, hi, hmk, if_true, if_false, ne_eq, not_false_eq_true]
      · simp only [hA, hB, hi, hmk, if_true, if_false, ne_eq, not_false_eq_true]
        simp

theorem build_frame_masked_ext16 (masked : Int) (P mask : List Nat) (n : Nat) (fl : Option Nat)
    (hmk : masked ≠ 0) (h0 : n ≠ 0) (h1 : 125 < n) (h2 : n ≤ 65535) :
    websocket_build_frame masked (some P) n true fl mask
      = ⟨some (frame_image masked mask P n), fl.map fun _ => 8 + n⟩ := by
  have hm1 : (8 + n) % SIZE_MOD = 8 + n := Nat.mod_eq_of_lt (by unfold SIZE_MOD; omega)
  have hm2 : (8 + n + 1) % SIZE_MOD = 8 + n + 1 :=
    Nat.mod_eq_of_lt (by unfold SIZE_MOD; omega)
  have c1 : ¬ n ≤ 125 := by omega
  have c2 : n ≤ 65535 := by omega
  have c126 : 126 = 126 := by omega
  have c127 : ¬ 126 = 127 := by omega
  have ha := and_size_max n (by omega)
  have hb := and_0xffff n h2
  have hb2 : n % 65536 = n := by omega
  obtain ⟨b1, b2, -⟩ := bits_small 126 (by decide)
  have hsel : select_len_form n = some (126, 2) := by
    simp [select_len_form, c1, c2]
  simp only [websocket_build_frame, hsel, h0, c126, c127, hmk, ha, hb, hb2, WS_MASK_SIZE, if_true, if_false,
    false_or, ne_eq, not_true_eq_false, not_false_eq_true, reduceCtorEq, Nat.reduceAdd,
    Nat.reduceSub, Nat.reducePow, Nat.add_zero, hm1, hm2]
  congr 2
  apply eq_of_rd
  · simp [frame_image, len_ext, c1, c2, key_bytes, body_bytes, hmk]; omega
  · intro j hj
    simp only [length_memcpy, List.length_set, length_zeroed, length_mask_loop,
      length_store_htonl, length_store_htons] at hj
    simp only [rd_mask_loop, rd_memcpy, rd_set, rd_zeroed, rd_store_htonl, rd_store_htons,
      length_memcpy, List.length_set, length_zeroed, length_store_htonl, length_store_htons]
    simp only [frame_image, len_ext, key_bytes, c1, c2, if_true, ne_eq, not_true_eq_false,
      if_false, hmk, not_false_eq_true,
      List.append_nil, List.cons_append, List.nil_append, List.append_assoc]
    by_cases hlt : j < 8
    · interval_cases j <;>
        simp [rd_cons_zero, rd_cons_succ, len_byte, c1, c2, b1, b2, hmk] <;>
        omega
    · obtain ⟨i, rfl⟩ : ∃ i, j = i + 8 := ⟨j - 8, by omega⟩
      simp only [rd_cons_succ, rd_body_bytes, Nat.zero_add, Nat.add_sub_cancel, WS_MASK_SIZE]
      have hA : (8 ≤ i + 8 ∧ i + 8 < 8 + n ∧ i + 8 < 8 + n + 1) ↔ i < n := by
        omega
      have hB : ¬ (4 ≤ i + 8 ∧ i + 8 < 4 + 4 ∧ i + 8 < 8 + n + 1) := by omega
      by_cases hi : i < n
      · simp only [hA, hB, hi, hmk, if_true, if_false, ne_eq, not_false_eq_true]
      · simp only [hA, hB, hi, hmk, if_true, if_false, ne_eq, not_false_eq_true]
        simp

theorem build_frame_masked_ext64 (masked : Int) (P mask : List Nat) (n : Nat) (fl : Option Nat)
    (hmk : masked ≠ 0) (h0 : n ≠ 0) (h1 : 65535 < n) (h2 : n ≤ PTRDIFF_MAX) :
    websocket_build_frame masked (some P) n true fl mask
      = ⟨some (frame_image masked mask P n), fl.map fun _ => 14 + n⟩ := by
  unfold PTRDIFF_MAX at h2
  have hm1 : (14 + n) % SIZE_MOD = 14 + n := Nat.mod_eq_of_lt (by unfold SIZE_MOD; omega)
  have hm2 : (14 + n + 1) % SIZE_MOD = 14 + n + 1 :=
    Nat.mod_eq_of_lt (by unfold SIZE_MOD; omega)
  have c1 : ¬ n ≤ 125 := by omega
  have c2 : ¬ n ≤ 65535 := by omega
  have c126 : ¬ 127 = 126 := by omega
  have c127 : 127 = 127 := by omega
  have ha := and_size_max n (by omega)
  have hd : ∀ k, k ≤ 24 → n % 4294967296 / 2 ^ k % 256 = n / 2 ^ k % 256 := by
    intro k hk
    interval_cases k <;> omega
  have hd0 : n % 4294967296 % 256 = n % 256 := by omega
  obtain ⟨b1, b2, -⟩ := bits_small 127 (by decide)
  have hsel : select_len_form n = some (127, 8) := by
    simp [select_len_form, c1, c2]; omega
  simp only [websocket_build_frame, hsel, h0, c126, c127, hmk, ha, WS_MASK_SIZE, if_true, if_false,
    false_or, ne_eq, not_true_eq_false, not_false_eq_true, reduceCtorEq, Nat.reduceAdd,
    Nat.reduceSub, Nat.reducePow, Nat.add_zero, hm1, hm2]
  congr 2
  apply eq_of_rd
  · simp [frame_image, len_ext, c1, c2, key_bytes, body_bytes, hmk]; omega
  · intro j hj
    simp only [length_memcpy, List.length_set, length_zeroed, length_mask_loop,
      length_store_htonl, length_store_htons] at hj
    simp only [rd_mask_loop, rd_memcpy, rd_set, rd_zeroed, rd_store_htonl, rd_store_htons,
      length_memcpy, List.length_set, length_zeroed, length_store_htonl, length_store_htons]
    simp only [frame_image, len_ext, key_bytes, c1, c2, if_true, ne_eq, not_true_eq_false,
      if_false, hmk, not_false_eq_true,
      List.append_nil, List.cons_append, List.nil_append, List.append_assoc]
    by_cases hlt : j < 14
    · interval_cases j <;>
        simp [rd_cons_zero, rd_cons_succ, len_byte, c1, c2, b1, b2, hmk, hd, hd0] <;>
        first | omega | (rw [if_pos (by omega)]; omega)
    · obtain ⟨i, rfl⟩ : ∃ i, j = i + 14 := ⟨j - 14, by omega⟩
      simp only [rd_cons_succ, rd_body_bytes, Nat.zero_add, Nat.add_sub_cancel, WS_MASK_SIZE]
      have hA : (14 ≤ i + 14 ∧ i + 14 < 14 + n ∧ i + 14 < 14 + n + 1) ↔ i < n := by
        omega
      have hB : ¬ (10 ≤ i + 14 ∧ i + 14 < 10 + 4 ∧ i + 14 < 14 + n + 1) := by omega
      by_cases hi : i < n
      · simp only [hA, hB, hi, hmk, if_true, if_false, ne_eq, not_false_eq_true]
      · simp only [hA, hB, hi, hmk, if_true, if_false, ne_eq, not_false_eq_true]
        simp

/-- The block `websocket_build_frame` returns for a payload of `n ≥ 1` bytes is the layout
`frame_image`, and the length it reports is the header length plus `n`. -/
theorem build_frame_eq (masked : Int) (P mask : List Nat) (n : Nat) (fl : Option Nat)
    (h0 : n ≠ 0) (h2 : n ≤ PTRDIFF_MAX) :
    websocket_build_frame masked (some P) n true fl mask
      = ⟨some (frame_image masked mask P n), fl.map fun _ => header_len masked n + n⟩ := by
  by_cases hmk : masked = 0
  · by_cases c1 : n ≤ 125
    · rw [build_frame_plain_inline masked P mask n fl hmk h0 c1]
      simp [header_len, len_size_of, c1, hmk]
    · by_cases c2 : n ≤ 65535
      · rw [build_frame_plain_ext16 masked P mask n fl hmk h0 (by omega) c2]
        simp [header_len, len_size_of, c1, c2, hmk]
      · rw [build_frame_plain_ext64 masked P mask n fl hmk h0 (by omega) h2]
        simp [header_len, len_size_of, c1, c2, hmk]
  · by_cases c1 : n ≤ 125
    · rw [build_frame_masked_inline masked P mask n fl hmk h0 c1]
      simp [header_len, len_size_of, c1, hmk]
    · by_cases c2 : n ≤ 65535
      · rw [build_frame_masked_ext16 masked P mask n fl hmk h0 (by omega) c2]
        simp [header_len, len_size_of, c1, c2, hmk]
      · rw [build_frame_masked_ext64 masked P mask n fl hmk h0 (by omega) h2]
        simp [header_len, len_size_of, c1, c2, hmk]

theorem length_len_ext (n : Nat) : (len_ext n).length = len_size_of n := by
  unfold len_ext len_size_of
  split_ifs <;> rfl

theorem length_key_bytes (masked : Int) (mask : List Nat) :
    (key_bytes masked mask).length = if masked ≠ 0 then 4 else 0 := by
  unfold key_bytes
  split_ifs <;> rfl

theorem length_frame_image (masked : Int) (mask P : List Nat) (n : Nat) :
    (frame_image masked mask P n).length = header_len masked n + n + 1 := by
  simp only [frame_image, List.length_append, length_len_ext, length_key_bytes,
    length_body_bytes, header_len, List.length_cons, List.length_nil]

theorem rd_frame_image_zero (masked : Int) (mask P : List Nat) (n : Nat) :
    rd (frame_image masked mask P n) 0 = 0x82 := rfl

theorem rd_frame_image_one (masked : Int) (mask P : List Nat) (n : Nat) :
    rd (frame_image masked mask P n) 1 = len_byte masked n := rfl

theorem rd_frame_image_ext (masked : Int) (mask P : List Nat) (n t : Nat)
    (ht : t < len_size_of n) :
    rd (frame_image masked mask P n) (2 + t) = rd (len_ext n) t := by
  have e : frame_image masked mask P n =
      [0x82, len_byte masked n] ++
        (len_ext n ++ (key_bytes masked mask ++ (body_bytes masked mask P n ++ [0]))) := by
    simp [frame_image]
  rw [e]
  have := rd_append_right [0x82, len_byte masked n]
    (len_ext n ++ (key_bytes masked mask ++ (body_bytes masked mask P n ++ [0]))) t
  simp only [List.length_cons, List.length_nil] at this
  rw [this, rd_append_left _ _ _ (by rw [length_len_ext]; exact ht)]

theorem rd_frame_image_key (masked : Int) (mask P : List Nat) (n t : Nat)
    (hmk : masked ≠ 0) (ht : t < 4) :
    rd (frame_image masked mask P n) (2 + len_size_of n + t) = rd mask t := by
  have e : frame_image masked mask P n =
      ([0x82, len_byte masked n] ++ len_ext n) ++
        (key_bytes masked mask ++ (body_bytes masked mask P n ++ [0])) := by
    simp [frame_image]
  rw [e]
  have := rd_append_right ([0x82, len_byte masked n] ++ len_ext n)
    (key_bytes masked mask ++ (body_bytes masked mask P n ++ [0])) t
  simp only [List.length_append, List.length_cons, List.length_nil, length_len_ext] at this
  rw [show 2 + len_size_of n + t = 0 + 1 + 1 + len_size_of n + t by omega, this,
    rd_append_left _ _ _ (by rw [length_key_bytes, if_pos hmk]; exact ht)]
  simp only [key_bytes, if_pos hmk]
  interval_cases t <;> rfl

theorem rd_frame_image_body (masked : Int) (mask P : List Nat) (n i : Nat) :
    rd (frame_image masked mask P n) (header_len masked n + i) =
      if i < n then
        (if masked ≠ 0 then (rd P i ^^^ (rd mask (i % 4) &&& 0xff)) % 256 else rd P i)
      else 0 := by
  have e : frame_image masked mask P n =
      ([0x82, len_byte masked n] ++ len_ext n ++ key_bytes masked mask) ++
        (body_bytes masked mask P n ++ [0]) := by
    simp [frame_image]
  rw [e]
  have := rd_append_right ([0x82, len_byte masked n] ++ len_ext n ++ key_bytes masked mask)
    (body_bytes masked mask P n ++ [0]) i
  simp only [List.length_append, List.length_cons, List.length_nil, length_len_ext,
    length_key_bytes] at this
  rw [show header_len masked n + i
      = 0 + 1 + 1 + len_size_of n + (if masked ≠ 0 then 4 else 0) + i by
    unfold header_len; omega, this, rd_body_bytes]

/-- The 7-bit length code of a payload of `n` bytes. -/
theorem len_byte_bits (masked : Int) (n : Nat) :
    (len_byte masked n &&& 0x80 = if masked ≠ 0 then 0x80 else 0) ∧
    (len_byte masked n &&& 0x7F = if n ≤ 125 then n else if n ≤ 0xffff then 126 else 127) := by
  have key : ∀ x, x < 128 →
      ((x + (if masked ≠ 0 then 0x80 else 0)) &&& 0x80 = if masked ≠ 0 then 0x80 else 0) ∧
      ((x + (if masked ≠ 0 then 0x80 else 0)) &&& 0x7F = x) := by
    intro x hx
    obtain ⟨-, -, b3, b4, b5, b6⟩ := bits_small x hx
    by_cases hmk : masked = 0
    · simp [hmk, b5, b6]
    · simp [hmk, b3, b4]
  unfold len_byte
  by_cases c1 : n ≤ 125
  · simpa [c1] using key n (by omega)
  · by_cases c2 : n ≤ 0xffff
    · simpa [c1, c2] using key 126 (by decide)
    · simpa [c1, c2] using key 127 (by decide)

theorem retrieve_header_of_agree (masked : Int) (mask P : List Nat) (n k : Nat) (mem : List Nat)
    (hk : 2 ≤ k)
    (hagree : ∀ j, j < k → j < header_len masked n →
      rd mem j = rd (frame_image masked mask P n) j) :
    retrieve_header mem k =
      if k < 2 + len_size_of n then none
      else some (n % 2 ^ 32, header_len masked n,
        if masked ≠ 0 then memcpy [0, 0, 0, 0] 0 mem (2 + len_size_of n) 4 else [0, 0, 0, 0]) := by
  have hH : 2 + len_size_of n ≤ header_len masked n := by unfold header_len; omega
  have h1 : rd mem 1 = len_byte masked n := by
    rw [hagree 1 (by omega) (by omega), rd_frame_image_one]
  obtain ⟨hb1, hb2⟩ := len_byte_bits masked n
  have hfm : decide (len_byte masked n &&& 0x80 = 0x80) = decide (masked ≠ 0) := by
    rw [hb1]
    by_cases hmk : masked = 0 <;> simp [hmk]
  unfold retrieve_header
  simp only [h1, hfm, hb2]
  by_cases c1 : n ≤ 125
  · have e1 : ¬ n = 126 := by omega
    have e2 : ¬ n = 127 := by omega
    have e3 : n % 4294967296 = n := by omega
    have e4 : ¬ k < 2 := by omega
    by_cases hmk : masked = 0 <;>
      simp [c1, e1, e2, e3, e4, len_size_of, header_len, hmk]
  · by_cases c2 : n ≤ 0xffff
    · have e3 : n % 4294967296 = n := by omega
      have hls : len_size_of n = 2 := by simp [len_size_of, c1, c2]
      simp only [c1, c2, if_true, if_false, hls, header_len, Nat.reduceEqDiff]
      by_cases hk4 : k < 4
      · simp [hk4]
      · have hl : load_ntohs mem 2 = n := by
          have r2 := hagree 2 (by omega) (by omega)
          have r3 := hagree 3 (by omega) (by omega)
          rw [rd_frame_image_ext masked mask P n 0 (by omega)] at r2
          rw [rd_frame_image_ext masked mask P n 1 (by omega)] at r3
          simp only [len_ext, c1, c2, if_false, if_true, rd_cons_zero, rd_cons_succ] at r2 r3
          unfold load_ntohs
          rw [r2, r3]
          omega
        by_cases hmk : masked = 0 <;> simp [hk4, hl, e3, hmk]
    · have hls : len_size_of n = 8 := by simp [len_size_of, c1, c2]
      simp only [c1, c2, if_true, if_false, hls, header_len, Nat.reduceEqDiff]
      by_cases hk10 : k < 10
      · simp [hk10]
      · have hin : ∀ t, t < 8 → rd mem (2 + t) = rd (len_ext n) t := by
          intro t ht
          rw [hagree (2 + t) (by omega) (by omega),
            rd_frame_image_ext masked mask P n t (by omega)]
        have r2 := hin 0 (by decide)
        have r3 := hin 1 (by decide)
        have r4 := hin 2 (by decide)
        have r5 := hin 3 (by decide)
        have r6 := hin 4 (by decide)
        have r7 := hin 5 (by decide)
        have r8 := hin 6 (by decide)
        have r9 := hin 7 (by decide)
        simp only [len_ext, c1, c2, if_false, rd_cons_zero, rd_cons_succ, Nat.reduceAdd]
          at r2 r3 r4 r5 r6 r7 r8 r9
        have hl : load_ntohl mem 6 = n % 4294967296 := by
          unfold load_ntohl
          simp only [Nat.reduceAdd]
          rw [r6, r7, r8, r9]
          omega
        by_cases hmk : masked = 0 <;> simp [hk10, hl, hmk, r2, r3, r4, r5]

theorem rd_leading (P : List Nat) (n j : Nat) :
    rd ((List.range n).map (rd P) ++ [0]) j = if j < n then rd P j else 0 := by
  by_cases h : j < n
  · rw [if_pos h, rd_append_left _ _ _ (by simpa using h), rd_eq_getElem _ _ (by simpa using h)]
    simp
  · rw [if_neg h]
    by_cases h2 : j = n
    · have := rd_append_right ((List.range n).map (rd P)) [0] 0
      simp only [List.length_map, List.length_range, Nat.add_zero] at this
      rw [h2]; exact this
    · exact rd_of_le _ _ (by simp; omega)

theorem map_rd_range (P : List Nat) : (List.range P.length).map (rd P) = P := by
  apply eq_of_rd (by simp)
  intro j hj
  have hj2 : j < P.length := by simpa using hj
  rw [rd_eq_getElem _ _ hj]
  simp [rd_eq_getElem P j hj2]

theorem unmask_byte (p m : Nat) (hp : p < 256) (hm : m < 256) :
    (((p ^^^ (m &&& 0xff)) % 256) ^^^ m) % 256 = p := by
  have e : m &&& 0xff = m := by
    have := Nat.and_pow_two_sub_one_eq_mod m 8
    norm_num at this
    rw [this]; omega
  have hx : p ^^^ m < 256 := @Nat.xor_lt_two_pow p m 8 hp hm
  rw [e, Nat.mod_eq_of_lt hx, Nat.xor_cancel_right, Nat.mod_eq_of_lt hp]

/-- First half of `websocket_retrieve_payload` on `k` bytes of memory that agree with a frame
laid out for a payload of `n` bytes: no result while the frame is incomplete, afterwards the
copy or unmasking of `n % 2 ^ 32` bytes, the length the header declares. -/
theorem retrieve_reduce (masked : Int) (mask P : List Nat) (n k : Nat) (mem : List Nat)
    (pl : Option Nat)
    (hagree : ∀ j, j < k → j < header_len masked n →
      rd mem j = rd (frame_image masked mask P n) j) :
    websocket_retrieve_payload mem k true pl =
      if k < header_len masked n + n % 2 ^ 32 then ⟨none, pl⟩
      else
        ⟨some (if masked ≠ 0 then
            unmask_loop mem (memcpy [0, 0, 0, 0] 0 mem (2 + len_size_of n) 4)
              (header_len masked n) (n % 2 ^ 32) (zeroed (n % 2 ^ 32 + 1))
          else memcpy (zeroed (n % 2 ^ 32 + 1)) 0 mem (header_len masked n) (n % 2 ^ 32)),
          pl.map fun _ => n % 2 ^ 32⟩ := by
  have hH : 2 + len_size_of n ≤ header_len masked n := by unfold header_len; omega
  have hH2 : header_len masked n ≤ 14 := by
    unfold header_len len_size_of; split_ifs <;> omega
  have hdl : n % 2 ^ 32 < 2 ^ 32 := Nat.mod_lt _ (by decide)
  unfold websocket_retrieve_payload
  simp only [Bool.true_eq_false, if_false]
  by_cases hk2 : k < 2
  · rw [if_pos hk2, if_pos (by omega)]
  rw [if_neg hk2, retrieve_header_of_agree masked mask P n k mem (by omega) hagree]
  by_cases hk3 : k < 2 + len_size_of n
  · rw [if_pos hk3, if_pos (by omega)]
  rw [if_neg hk3]
  simp only []
  have hm1 : (n % 2 ^ 32 + header_len masked n) % SIZE_MOD = header_len masked n + n % 2 ^ 32 := by
    rw [Nat.mod_eq_of_lt (by unfold SIZE_MOD; omega)]; omega
  have hm2 : (n % 2 ^ 32 + 1) % SIZE_MOD = n % 2 ^ 32 + 1 :=
    Nat.mod_eq_of_lt (by unfold SIZE_MOD; omega)
  rw [hm1, hm2]
  by_cases hk4 : k < header_len masked n + n % 2 ^ 32
  · rw [if_pos hk4, if_pos hk4]
  rw [if_neg hk4, if_neg hk4]
  have h1 : rd mem 1 = len_byte masked n := by
    rw [hagree 1 (by omega) (by omega), rd_frame_image_one]
  have hfm : decide (rd mem 1 &&& 0x80 = 0x80) = decide (masked ≠ 0) := by
    rw [h1, (len_byte_bits masked n).1]
    by_cases hmk : masked = 0 <;> simp [hmk]
  rw [hfm]
  by_cases hmk : masked = 0 <;> simp [hmk]

/-- An incomplete frame gives no result and leaves `*payload_len` alone. -/
theorem retrieve_incomplete (masked : Int) (mask P : List Nat) (n k : Nat) (mem : List Nat)
    (pl : Option Nat)
    (hagree : ∀ j, j < k → j < header_len masked n →
      rd mem j = rd (frame_image masked mask P n) j)
    (hk : k < header_len masked n + n % 2 ^ 32) :
    websocket_retrieve_payload mem k true pl = ⟨none, pl⟩ := by
  rw [retrieve_reduce masked mask P n k mem pl hagree, if_pos hk]

/-- A complete frame gives the first `n % 2 ^ 32` bytes of the payload, followed by the spare
zero byte of the block, and reports that length. -/
theorem retrieve_complete (masked : Int) (mask P : List Nat) (n k : Nat) (mem : List Nat)
    (pl : Option Nat)
    (hP : ∀ i, i < n % 2 ^ 32 → rd P i < 256) (hmask : ∀ t, t < 4 → rd mask t < 256)
    (hagree : ∀ j, j < header_len masked n + n % 2 ^ 32 →
      rd mem j = rd (frame_image masked mask P n) j)
    (hk : header_len masked n + n % 2 ^ 32 ≤ k) :
    websocket_retrieve_payload mem k true pl =
      ⟨some ((List.range (n % 2 ^ 32)).map (rd P) ++ [0]), pl.map fun _ => n % 2 ^ 32⟩ := by
  have hH : 2 + len_size_of n ≤ header_len masked n := by unfold header_len; omega
  have hdn : n % 2 ^ 32 ≤ n := Nat.mod_le _ _
  rw [retrieve_reduce masked mask P n k mem pl (fun j _ h => hagree j (by omega)),
    if_neg (by omega)]
  congr 2
  apply eq_of_rd
  · by_cases hmk : masked = 0 <;> simp [hmk]
  · intro j hj
    rw [rd_leading]
    by_cases hmk : masked = 0
    · subst hmk
      simp only [ne_eq, not_true_eq_false, if_false, length_memcpy, length_zeroed] at hj
      simp only [ne_eq, not_true_eq_false, if_false, rd_memcpy, rd_zeroed, length_zeroed]
      by_cases hj2 : j < n % 2 ^ 32
      · rw [if_pos (by omega), if_pos hj2, Nat.sub_zero,
          hagree _ (by omega), rd_frame_image_body,
          if_pos (by omega), if_neg (by simp)]
      · rw [if_neg (by omega), if_neg hj2]
    · simp only [hmk, ne_eq, not_false_eq_true, if_true,
        length_unmask_loop, length_zeroed] at hj
      simp only [hmk, ne_eq, not_false_eq_true, if_true,
        rd_unmask_loop, rd_zeroed, length_zeroed]
      by_cases hj2 : j < n % 2 ^ 32
      · have h4 : j % 4 < 4 := Nat.mod_lt _ (by decide)
        have hHm : header_len masked n = 2 + len_size_of n + 4 := by
          unfold header_len; simp [hmk]
        have hkey : rd (memcpy [0, 0, 0, 0] 0 mem (2 + len_size_of n) 4) (j % 4)
            = rd mask (j % 4) := by
          rw [rd_memcpy, if_pos ⟨by omega, by omega, by simpa using h4⟩, Nat.sub_zero,
            hagree _ (by omega), rd_frame_image_key masked mask P n _ hmk h4]
        rw [if_pos (by omega), if_pos hj2,
          hagree _ (by omega), Nat.add_comm j, rd_frame_image_body,
          if_pos (by omega), if_pos hmk, hkey]
        exact unmask_byte _ _ (hP j hj2) (hmask _ h4)
      · rw [if_neg (by omega), if_neg hj2]

/-! ## Facts shared by the claims -/

theorem rd_take (l : List Nat) (k j : Nat) (h : j < k) : rd (l.take k) j = rd l j := by
  simp [rd, List.getElem?_take, h]

theorem rd_eq_of_take_eq {mem frame : List Nat} {k : Nat} (h : mem.take k = frame.take k)
    (j : Nat) (hj : j < k) : rd mem j = rd frame j := by
  rw [← rd_take mem k j hj, h, rd_take frame k j hj]

theorem take_leading_zero (P : List Nat) :
    ((List.range P.length).map (rd P) ++ [0]).take P.length = P := by
  rw [map_rd_range, List.take_left]

theorem header_len_le (masked : Int) (n : Nat) : header_len masked n ≤ 14 := by
  unfold header_len len_size_of; split_ifs <;> omega

theorem two_le_header_len (masked : Int) (n : Nat) : 2 ≤ header_len masked n := by
  unfold header_len; omega

/-- Round trip through the two functions, for a payload whose length fits in 32 bits. -/
theorem roundtrip_core (masked : Int) (P mask : List Nat) (fl pl : Option Nat)
    (hne : P ≠ []) (hlen : P.length ≤ 0xFFFFFFFF) (hP : IsBytes P) (hmask : IsBytes mask) :
    websocket_build_frame masked (some P) P.length true fl mask
        = ⟨some (frame_image masked mask P P.length),
            fl.map fun _ => header_len masked P.length + P.length⟩ ∧
      ∀ mem, mem.take (header_len masked P.length + P.length)
          = (frame_image masked mask P P.length).take (header_len masked P.length + P.length) →
        websocket_retrieve_payload mem (header_len masked P.length + P.length) true pl
          = ⟨some (P ++ [0]), pl.map fun _ => P.length⟩ := by
  have h0 : P.length ≠ 0 := by
    intro h; exact hne (List.length_eq_zero.mp h)
  have hmod : P.length % 2 ^ 32 = P.length := Nat.mod_eq_of_lt (by omega)
  refine ⟨build_frame_eq masked P mask P.length fl h0 (by unfold PTRDIFF_MAX; omega), ?_⟩
  intro mem hmem
  have := retrieve_complete masked mask P P.length
    (header_len masked P.length + P.length) mem pl
    (fun i _ => rd_lt_of_isBytes hP i) (fun t _ => rd_lt_of_isBytes hmask t)
    (fun j hj => rd_eq_of_take_eq hmem j (by omega)) (by omega)
  rw [this, hmod, map_rd_range]

/-- A frame cut short gives no result, for a payload whose length fits in 32 bits. -/
theorem truncated_core (masked : Int) (P mask : List Nat) (n : Nat) (mem : List Nat)
    (allocator : Bool) (pl : Option Nat) (hlen : P.length ≤ 0xFFFFFFFF)
    (hn : n < header_len masked P.length + P.length)
    (hmem : mem.take n = (frame_image masked mask P P.length).take n) :
    websocket_retrieve_payload mem n allocator pl = ⟨none, pl⟩ := by
  cases allocator with
  | false => simp [websocket_retrieve_payload]
  | true =>
    have hmod : P.length % 2 ^ 32 = P.length := Nat.mod_eq_of_lt (by omega)
    exact retrieve_incomplete masked mask P P.length n mem pl
      (fun j hj _ => rd_eq_of_take_eq hmem j hj) (by omega)

/-- A 64-bit length whose high half is not zero gives no result. -/
theorem malformed_core (data : List Nat) (dataLen : Nat) (allocator : Bool) (pl : Option Nat)
    (h10 : 10 ≤ dataLen) (hcode : rd data 1 &&& 0x7F = 127)
    (hhigh : rd data 2 ≠ 0 ∨ rd data 3 ≠ 0 ∨ rd data 4 ≠ 0 ∨ rd data 5 ≠ 0) :
    websocket_retrieve_payload data dataLen allocator pl = ⟨none, pl⟩ := by
  have h2 : ¬ dataLen < 2 := by omega
  have h3 : ¬ dataLen < 10 := by omega
  have hh : retrieve_header data dataLen = none := by
    unfold retrieve_header
    simp only [hcode, Nat.reduceEqDiff, if_false, if_true, h3, hhigh]
  unfold websocket_retrieve_payload
  cases allocator with
  | false => simp
  | true => simp [h2, hh]

/-- The frame built for a payload of `2 ^ 32` bytes, and what is retrieved from it. -/
theorem oversize_core (P mask : List Nat) (hmask : IsBytes mask) :
    websocket_build_frame 0 (some P) 4294967296 true (some 0) mask
        = ⟨some (frame_image 0 mask P 4294967296), some 4294967306⟩ ∧
      websocket_retrieve_payload (frame_image 0 mask P 4294967296) 4294967306 true (some 0)
        = ⟨some [0], some 0⟩ ∧
      websocket_retrieve_payload ((frame_image 0 mask P 4294967296).take 10) 10 true (some 0)
        = ⟨some [0], some 0⟩ := by
  have hH : header_len 0 4294967296 = 10 := by decide
  have hmod : 4294967296 % 2 ^ 32 = 0 := by decide
  refine ⟨?_, ?_, ?_⟩
  · have := build_frame_eq 0 P mask 4294967296 (some 0) (by decide) (by decide)
    rw [this, hH]; rfl
  · have := retrieve_complete 0 mask P 4294967296 4294967306
      (frame_image 0 mask P 4294967296) (some 0)
      (fun i hi => by omega) (fun t _ => rd_lt_of_isBytes hmask t) (fun j _ => rfl)
      (by rw [hH, hmod]; decide)
    rw [this, hmod]; rfl
  · have := retrieve_complete 0 mask P 4294967296 10
      ((frame_image 0 mask P 4294967296).take 10) (some 0)
      (fun i hi => by omega) (fun t _ => rd_lt_of_isBytes hmask t)
      (fun j hj => rd_take _ _ _ (by rw [hH, hmod] at hj; exact hj))
      (by rw [hH, hmod])
    rw [this, hmod]; rfl

/-- Bytes 1 to 9 of a frame and the length the frame declares, by length form. -/
theorem length_form_core (masked : Int) (P mask : List Nat) (n : Nat) :
    (n ≤ 125 →
      rd (frame_image masked mask P n) 1 &&& 0x7F = n ∧
      header_len masked n = 2 + (if masked ≠ 0 then 4 else 0)) ∧
    (126 ≤ n → n ≤ 0xFFFF →
      rd (frame_image masked mask P n) 1 &&& 0x7F = 126 ∧
      rd (frame_image masked mask P n) 2 = n / 256 ∧
      rd (frame_image masked mask P n) 3 = n % 256 ∧
      header_len masked n = 4 + (if masked ≠ 0 then 4 else 0)) ∧
    (0xFFFF < n →
      rd (frame_image masked mask P n) 1 &&& 0x7F = 127 ∧
      rd (frame_image masked mask P n) 2 = 0 ∧ rd (frame_image masked mask P n) 3 = 0 ∧
      rd (frame_image masked mask P n) 4 = 0 ∧ rd (frame_image masked mask P n) 5 = 0 ∧
      rd (frame_image masked mask P n) 6 = n / 2 ^ 24 % 256 ∧
      rd (frame_image masked mask P n) 7 = n / 2 ^ 16 % 256 ∧
      rd (frame_image masked mask P n) 8 = n / 2 ^ 8 % 256 ∧
      rd (frame_image masked mask P n) 9 = n % 256 ∧
      header_len masked n = 10 + (if masked ≠ 0 then 4 else 0)) := by
  have hb := (len_byte_bits masked n).2
  rw [← rd_frame_image_one masked mask P n] at hb
  refine ⟨fun c1 => ?_, fun c1 c2 => ?_, fun c2 => ?_⟩
  · rw [hb]
    simp [c1, header_len, len_size_of]
  · have c0 : ¬ n ≤ 125 := by omega
    have hls : len_size_of n = 2 := by simp [len_size_of, c0, c2]
    have r2 := rd_frame_image_ext masked mask P n 0 (by omega)
    have r3 := rd_frame_image_ext masked mask P n 1 (by omega)
    simp only [len_ext, c0, c2, if_false, if_true, rd_cons_zero, rd_cons_succ] at r2 r3
    rw [hb]
    refine ⟨by simp [c0, c2], by rw [r2]; omega, r3, by simp [header_len, hls]⟩
  · have c0 : ¬ n ≤ 125 := by omega
    have c1 : ¬ n ≤ 0xffff := by omega
    have hls : len_size_of n = 8 := by simp [len_size_of, c0, c1]
    have hin : ∀ t, t < 8 → rd (frame_image masked mask P n) (2 + t) = rd (len_ext n) t :=
      fun t ht => rd_frame_image_ext masked mask P n t (by omega)
    have r2 := hin 0 (by decide)
    have r3 := hin 1 (by decide)
    have r4 := hin 2 (by decide)
    have r5 := hin 3 (by decide)
    have r6 := hin 4 (by decide)
    have r7 := hin 5 (by decide)
    have r8 := hin 6 (by decide)
    have r9 := hin 7 (by decide)
    simp only [len_ext, c0, c1, if_false, rd_cons_zero, rd_cons_succ, Nat.reduceAdd]
      at r2 r3 r4 r5 r6 r7 r8 r9
    rw [hb]
    exact ⟨by simp [c0, c1], r2, r3, r4, r5, r6, r7, r8, r9, by simp [header_len, hls]⟩

theorem xor_byte (p m : Nat) (hp : p < 256) (hm : m < 256) :
    (p ^^^ (m &&& 0xff)) % 256 = p ^^^ m := by
  have e : m &&& 0xff = m := by
    have := Nat.and_pow_two_sub_one_eq_mod m 8
    norm_num at this
    rw [this]; omega
  have hx : p ^^^ m < 256 := @Nat.xor_lt_two_pow p m 8 hp hm
  rw [e, Nat.mod_eq_of_lt hx]

theorem declared_payload_len_lt (data : List Nat) (hb : IsBytes data) :
    declared_payload_len data < 2 ^ 32 := by
  have h2 := rd_lt_of_isBytes hb 2
  have h3 := rd_lt_of_isBytes hb 3
  have h6 := rd_lt_of_isBytes hb 6
  have h7 := rd_lt_of_isBytes hb 7
  have h8 := rd_lt_of_isBytes hb 8
  have h9 := rd_lt_of_isBytes hb 9
  have hc : rd data 1 &&& 0x7F ≤ 0x7F := Nat.and_le_right
  unfold declared_payload_len load_ntohs load_ntohl
  simp only [Nat.reduceAdd]
  split_ifs <;> omega

theorem retrieve_header_declared (data : List Nat) (dataLen len H : Nat) (key : List Nat)
    (h : retrieve_header data dataLen = some (len, H, key)) :
    len = declared_payload_len data ∧ H = declared_header_len data := by
  unfold retrieve_header at h
  unfold declared_payload_len declared_header_len
  by_cases c1 : rd data 1 &&& 0x7F = 126
  · simp only [c1, if_true] at h ⊢
    by_cases c3 : dataLen < 4
    · simp [c3] at h
    · simp only [c3, if_false, Option.some.injEq, Prod.mk.injEq] at h
      obtain ⟨h1, h2, -⟩ := h
      refine ⟨h1.symm, ?_⟩
      rw [← h2]
      by_cases hm : rd data 1 &&& 0x80 = 0x80 <;> simp [hm]
  · by_cases c2 : rd data 1 &&& 0x7F = 127
    · simp only [c2, Nat.reduceEqDiff, if_false, if_true] at h ⊢
      by_cases c3 : dataLen < 10
      · simp [c3] at h
      · simp only [c3, if_false] at h
        by_cases c4 : rd data 2 ≠ 0 ∨ rd data 3 ≠ 0 ∨ rd data 4 ≠ 0 ∨ rd data 5 ≠ 0
        · simp [c4] at h
        · simp only [c4, if_false, Option.some.injEq, Prod.mk.injEq] at h
          obtain ⟨h1, h2, -⟩ := h
          refine ⟨h1.symm, ?_⟩
          rw [← h2]
          by_cases hm : rd data 1 &&& 0x80 = 0x80 <;> simp [hm]
    · simp only [c1, c2, if_false, Option.some.injEq, Prod.mk.injEq] at h ⊢
      obtain ⟨h1, h2, -⟩ := h
      refine ⟨h1.symm, ?_⟩
      rw [← h2]
      by_cases hm : rd data 1 &&& 0x80 = 0x80 <;> simp [hm]

theorem declared_header_len_le (data : List Nat) : declared_header_len data ≤ 14 := by
  unfold declared_header_len; split_ifs <;> omega

/-- A successful call reports the payload length the header declares, and the header and that
many payload bytes lie within the `dataLen` bytes given. -/
theorem retrieve_success_core (data : List Nat) (dataLen : Nat) (allocator : Bool)
    (pl : Option Nat) (package : List Nat) (m : Nat) (hb : IsBytes data)
    (hs : websocket_retrieve_payload data dataLen allocator pl = ⟨some package, some m⟩) :
    m = declared_payload_len data ∧ declared_header_len data + m ≤ dataLen ∧
      package.length = m + 1 := by
  unfold websocket_retrieve_payload at hs
  cases allocator with
  | false => simp at hs
  | true =>
    simp only [Bool.true_eq_false, if_false] at hs
    by_cases c2 : dataLen < 2
    · simp [c2] at hs
    · simp only [c2, if_false] at hs
      cases hh : retrieve_header data dataLen with
      | none => simp [hh] at hs
      | some t =>
        obtain ⟨len, H, key⟩ := t
        obtain ⟨e1, e2⟩ := retrieve_header_declared data dataLen len H key hh
        have hlt := declared_payload_len_lt data hb
        have hH := declared_header_len_le data
        subst e1 e2
        simp only [hh] at hs
        have hm1 : (declared_payload_len data + declared_header_len data) % SIZE_MOD
            = declared_payload_len data + declared_header_len data :=
          Nat.mod_eq_of_lt (by unfold SIZE_MOD; omega)
        have hm2 : (declared_payload_len data + 1) % SIZE_MOD = declared_payload_len data + 1 :=
          Nat.mod_eq_of_lt (by unfold SIZE_MOD; omega)
        rw [hm1, hm2] at hs
        by_cases c3 : dataLen < declared_payload_len data + declared_header_len data
        · simp [c3] at hs
        · simp only [c3, if_false, WsResult.mk.injEq, Option.some.injEq] at hs
          obtain ⟨hp, hl⟩ := hs
          cases pl with
          | none => simp at hl
          | some v =>
            simp only [Option.map_some', Option.some.injEq] at hl
            refine ⟨hl.symm, by omega, ?_⟩
            rw [← hp, ← hl]
            split_ifs <;> simp

theorem cstr_ne_zero (s : List Nat) : ∀ x ∈ cstr s, x ≠ 0 := by
  intro x hx
  have := List.mem_takeWhile_imp hx
  simpa using this

theorem cstr_append_zero (a r : List Nat) (ha : ∀ x ∈ a, x ≠ 0) : cstr (a ++ 0 :: r) = a := by
  unfold cstr
  rw [List.takeWhile_append_of_pos (by simpa using ha)]
  simp

theorem cstr_zeroed (n : Nat) : cstr (zeroed n) = [] := by
  cases n with
  | zero => rfl
  | succ k => simp [cstr, zeroed, List.replicate_succ]

theorem rd_append (a b : List Nat) (j : Nat) :
    rd (a ++ b) j = if j < a.length then rd a j else rd b (j - a.length) := by
  by_cases h : j < a.length
  · rw [if_pos h, rd_append_left _ _ _ h]
  · rw [if_neg h]
    have := rd_append_right a b (j - a.length)
    rwa [show a.length + (j - a.length) = j by omega] at this

/-- The first `strcat` into the zeroed block leaves the string followed by zeros. -/
theorem strcat_zeroed (s : List Nat) (n : Nat) (hn : strlen s < n) :
    strcat (zeroed n) s = cstr s ++ zeroed (n - strlen s) := by
  unfold strcat
  rw [show strlen (zeroed n) = 0 by unfold strlen; rw [cstr_zeroed]; rfl]
  apply eq_of_rd
  · simp [strlen] at hn ⊢; omega
  · intro j hj
    simp only [length_memcpy, length_zeroed] at hj
    rw [rd_memcpy, rd_append, rd_append, rd_zeroed, rd_zeroed, length_zeroed]
    unfold strlen
    by_cases h1 : j < (cstr s).length
    · rw [if_pos ⟨by omega, by omega, hj⟩, if_pos (by omega), if_pos h1]
      congr 1; omega
    · by_cases h2 : j = (cstr s).length
      · rw [if_pos ⟨by omega, by omega, hj⟩, if_neg (by omega), if_neg h1]
        have : 0 + (j - 0) - (cstr s).length = 0 := by omega
        rw [this]; rfl
      · rw [if_neg (by omega), if_neg h1]

/-- The two `strcat` calls leave `key ++ guid` in the first bytes of the block. -/
theorem concatenated_val_eq (key guid : List Nat) :
    (strcat (strcat (zeroed (strlen key + strlen guid + 1)) key) guid).take
        (strlen key + strlen guid) = cstr key ++ cstr guid := by
  rw [strcat_zeroed key _ (by omega)]
  have hz : zeroed (strlen key + strlen guid + 1 - strlen key) = 0 :: zeroed (strlen guid) := by
    rw [show strlen key + strlen guid + 1 - strlen key = strlen guid + 1 by omega]
    simp [zeroed, List.replicate_succ]
  rw [hz]
  unfold strcat
  rw [show strlen (cstr key ++ 0 :: zeroed (strlen guid)) = strlen key by
    unfold strlen; rw [cstr_append_zero _ _ (cstr_ne_zero key)]]
  unfold strlen
  apply eq_of_rd
  · simp
  · intro j hj
    have hj2 : j < (cstr key).length + (cstr guid).length := by
      simp only [List.length_take, length_memcpy, List.length_append, List.length_cons,
        length_zeroed] at hj
      omega
    rw [rd_take _ _ _ hj2, rd_memcpy, rd_append (cstr key) (cstr guid)]
    simp only [List.length_append, List.length_cons, length_zeroed]
    by_cases h1 : j < (cstr key).length
    · rw [if_neg (by omega), if_pos h1, rd_append_left _ _ _ h1]
    · rw [if_pos ⟨by omega, by omega, by omega⟩, if_neg h1, Nat.zero_add,
        rd_append_left _ _ _ (by omega)]

theorem length_be_bytes (w v : Nat) : (be_bytes w v).length = w := by
  simp [be_bytes]

theorem length_mbedtls_sha1 (input : List Nat) : (mbedtls_sha1 input).length = 20 := by
  simp [mbedtls_sha1, length_be_bytes]

theorem base64_char_ne_zero (v : Nat) : base64_char v ≠ 0 := by
  have h : ∀ i, i < 64 → rd base64_alphabet i ≠ 0 := by decide
  exact h _ (Nat.mod_lt _ (by decide))

theorem base64_ne_zero : ∀ (src : List Nat), ∀ x ∈ mbedtls_base64_encode src, x ≠ 0
  | a :: b :: c :: rest => by
    intro x hx
    simp only [mbedtls_base64_encode, List.mem_cons] at hx
    rcases hx with h | h | h | h | h
    · rw [h]; exact base64_char_ne_zero _
    · rw [h]; exact base64_char_ne_zero _
    · rw [h]; exact base64_char_ne_zero _
    · rw [h]; exact base64_char_ne_zero _
    · exact base64_ne_zero rest x h
  | [a, b] => by
    intro x hx
    simp only [mbedtls_base64_encode, List.mem_cons, List.not_mem_nil, or_false] at hx
    rcases hx with h | h | h | h
    · rw [h]; exact base64_char_ne_zero _
    · rw [h]; exact base64_char_ne_zero _
    · rw [h]; exact base64_char_ne_zero _
    · rw [h]; decide
  | [a] => by
    intro x hx
    simp only [mbedtls_base64_encode, List.mem_cons, List.not_mem_nil, or_false] at hx
    rcases hx with h | h | h | h
    · rw [h]; exact base64_char_ne_zero _
    · rw [h]; exact base64_char_ne_zero _
    · rw [h]; decide
    · rw [h]; decide
  | [] => by
    intro x hx
    simp [mbedtls_base64_encode] at hx

/-- The block the function returns: the text, its NUL, and the byte set to zero before. -/
theorem b64_block_eq (b64 : List Nat) :
    memcpy (zeroed (b64.length + 1 + 1)) 0 (b64 ++ [0]) 0 (b64.length + 1) = b64 ++ [0, 0] := by
  apply eq_of_rd
  · simp
  · intro j hj
    simp only [length_memcpy, length_zeroed] at hj
    rw [rd_memcpy, rd_append, rd_append, rd_zeroed, length_zeroed]
    by_cases h1 : j < b64.length
    · rw [if_pos ⟨by omega, by omega, hj⟩, if_pos (by omega), if_pos h1]
      congr 1; omega
    · by_cases h2 : j = b64.length
      · rw [if_pos ⟨by omega, by omega, hj⟩, if_neg (by omega), if_neg h1]
        have e1 : 0 + (j - 0) - b64.length = 0 := by omega
        have e2 : j - b64.length = 0 := by omega
        rw [e1, e2]; rfl
      · rw [if_neg (by omega), if_neg h1]
        have e2 : j - b64.length = 1 := by omega
        rw [e2]; rfl

/-- The accept value, for every non-empty key. -/
theorem accept_core (key : List Nat) (hkey : strlen key ≠ 0) :
    websocket_generate_sec_websocket_accept (some key) true
      = some (mbedtls_base64_encode (mbedtls_sha1 (cstr key ++ cstr WEBSOCKET_GUID)) ++ [0, 0]) := by
  unfold websocket_generate_sec_websocket_accept
  simp only [hkey, Bool.true_eq_false, or_self, if_false]
  rw [concatenated_val_eq, SHA_DIGEST_LENGTH,
    List.take_of_length_le (by rw [length_mbedtls_sha1]), b64_block_eq]

set_option maxRecDepth 100000 in
/-- The accept value for the key of the RFC 6455 example, by evaluation. -/
theorem accept_test_vector :
    (websocket_generate_sec_websocket_accept (some (c_literal "dGhlIHNhbXBsZSBub25jZQ==")) true).map
        cstr = some (cstr (c_literal "s3pPLMBiTxaQ9kYGzzhZRbK+xOo=")) := by
  decide

/-! ## The parser in closed form, and what it reads -/

theorem memcpy_key (data : List Nat) (k : Nat) :
    memcpy [0, 0, 0, 0] 0 data k 4 = [rd data k, rd data (k + 1), rd data (k + 2), rd data (k + 3)] := by
  simp [memcpy, List.range_succ]

theorem retrieve_header_eq (data : List Nat) (dataLen : Nat) :
    retrieve_header data dataLen =
      if (rd data 1 &&& 0x7F = 126 ∧ dataLen < 4) ∨
          (rd data 1 &&& 0x7F = 127 ∧
            (dataLen < 10 ∨ rd data 2 ≠ 0 ∨ rd data 3 ≠ 0 ∨ rd data 4 ≠ 0 ∨ rd data 5 ≠ 0))
      then none
      else
        some (declared_payload_len data, declared_header_len data,
          if rd data 1 &&& 0x80 = 0x80 then
            [rd data (declared_key_offset data), rd data (declared_key_offset data + 1),
              rd data (declared_key_offset data + 2), rd data (declared_key_offset data + 3)]
          else [0, 0, 0, 0]) := by
  unfold retrieve_header declared_payload_len declared_header_len declared_key_offset
  simp only [memcpy_key]
  by_cases c1 : rd data 1 &&& 0x7F = 126
  · by_cases c3 : dataLen < 4
    · simp [c1, c3]
    · by_cases hm : rd data 1 &&& 0x80 = 0x80 <;> simp [c1, c3, hm]
  · by_cases c2 : rd data 1 &&& 0x7F = 127
    · by_cases c3 : dataLen < 10
      · simp [c2, c3]
      · by_cases c4 : rd data 2 ≠ 0 ∨ rd data 3 ≠ 0 ∨ rd data 4 ≠ 0 ∨ rd data 5 ≠ 0
        · simp only [c2, c3, c4, Nat.reduceEqDiff, if_false, if_true, or_true, and_true, or_self,
            false_or, and_false]
        · by_cases hm : rd data 1 &&& 0x80 = 0x80
          · simp only [c2, c3, c4, hm, Nat.reduceEqDiff, if_false, if_true, or_false, and_false,
              or_self, decide_True, false_and]
          · simp only [c2, c3, c4, hm, Nat.reduceEqDiff, if_false, if_true, or_false, and_false,
              or_self, decide_False, false_and, Bool.false_eq_true, Nat.add_zero]
    · by_cases hm : rd data 1 &&& 0x80 = 0x80 <;> simp [c1, c2, hm]

theorem rd_map_range_zero (f : Nat → Nat) (n j : Nat) :
    rd ((List.range n).map f ++ [0]) j = if j < n then f j else 0 := by
  by_cases h : j < n
  · rw [if_pos h, rd_append_left _ _ _ (by simpa using h), rd_eq_getElem _ _ (by simpa using h)]
    simp
  · rw [if_neg h]
    by_cases h2 : j = n
    · have := rd_append_right ((List.range n).map f) [0] 0
      simp only [List.length_map, List.length_range, Nat.add_zero] at this
      rw [h2]; exact this
    · exact rd_of_le _ _ (by simp; omega)

theorem rd_key (a b c d t : Nat) (k : List Nat) (hk : k = [a, b, c, d]) (ht : t < 4) :
    rd k t = if t = 0 then a else if t = 1 then b else if t = 2 then c else d := by
  subst hk
  interval_cases t <;> rfl

theorem rd_key_bytes (data : List Nat) (k t : Nat) (ht : t < 4) :
    rd [rd data k, rd data (k + 1), rd data (k + 2), rd data (k + 3)] t = rd data (k + t) := by
  interval_cases t <;> rfl

theorem declared_key_offset_le (data : List Nat) :
    2 ≤ declared_key_offset data ∧ declared_key_offset data ≤ 10 := by
  unfold declared_key_offset; split_ifs <;> omega

theorem declared_header_len_eq (data : List Nat) :
    declared_header_len data
      = declared_key_offset data + if rd data 1 &&& 0x80 = 0x80 then 4 else 0 := rfl

/-- The function `websocket_retrieve_payload` in closed form, for an input made of bytes. -/
theorem retrieve_closed (data : List Nat) (dataLen : Nat) (pl : Option Nat) (hb : IsBytes data) :
    websocket_retrieve_payload data dataLen true pl =
      if dataLen < 2 ∨ (rd data 1 &&& 0x7F = 126 ∧ dataLen < 4) ∨
          (rd data 1 &&& 0x7F = 127 ∧
            (dataLen < 10 ∨ rd data 2 ≠ 0 ∨ rd data 3 ≠ 0 ∨ rd data 4 ≠ 0 ∨ rd data 5 ≠ 0)) ∨
          dataLen < declared_header_len data + declared_payload_len data
      then ⟨none, pl⟩
      else ⟨some (declared_payload data ++ [0]), pl.map fun _ => declared_payload_len data⟩ := by
  have hlt := declared_payload_len_lt data hb
  have hH := declared_header_len_le data
  have hm1 : (declared_payload_len data + declared_header_len data) % SIZE_MOD
      = declared_header_len data + declared_payload_len data := by
    rw [Nat.mod_eq_of_lt (by unfold SIZE_MOD; omega)]; omega
  have hm2 : (declared_payload_len data + 1) % SIZE_MOD = declared_payload_len data + 1 :=
    Nat.mod_eq_of_lt (by unfold SIZE_MOD; omega)
  unfold websocket_retrieve_payload
  simp only [Bool.true_eq_false, if_false]
  by_cases c2 : dataLen < 2
  · simp [c2]
  rw [if_neg c2, retrieve_header_eq]
  by_cases c3 : (rd data 1 &&& 0x7F = 126 ∧ dataLen < 4) ∨
      (rd data 1 &&& 0x7F = 127 ∧
        (dataLen < 10 ∨ rd data 2 ≠ 0 ∨ rd data 3 ≠ 0 ∨ rd data 4 ≠ 0 ∨ rd data 5 ≠ 0))
  · have c3b : dataLen < 2 ∨ (rd data 1 &&& 0x7F = 126 ∧ dataLen < 4) ∨
        (rd data 1 &&& 0x7F = 127 ∧
          (dataLen < 10 ∨ rd data 2 ≠ 0 ∨ rd data 3 ≠ 0 ∨ rd data 4 ≠ 0 ∨ rd data 5 ≠ 0)) ∨
        dataLen < declared_header_len data + declared_payload_len data := by
      rcases c3 with h | h
      · exact Or.inr (Or.inl h)
      · exact Or.inr (Or.inr (Or.inl h))
    rw [if_pos c3, if_pos c3b]
  rw [if_neg c3]
  simp only []
  rw [hm1, hm2]
  by_cases c4 : dataLen < declared_header_len data + declared_payload_len data
  · rw [if_pos c4, if_pos (Or.inr (Or.inr (Or.inr c4)))]
  have c5 : ¬ (dataLen < 2 ∨ (rd data 1 &&& 0x7F = 126 ∧ dataLen < 4) ∨
      (rd data 1 &&& 0x7F = 127 ∧
        (dataLen < 10 ∨ rd data 2 ≠ 0 ∨ rd data 3 ≠ 0 ∨ rd data 4 ≠ 0 ∨ rd data 5 ≠ 0)) ∨
      dataLen < declared_header_len data + declared_payload_len data) := by
    intro h
    rcases h with h | h | h | h
    · exact c2 h
    · exact c3 (Or.inl h)
    · exact c3 (Or.inr h)
    · exact c4 h
  rw [if_neg c4, if_neg c5]
  congr 2
  apply eq_of_rd
  · by_cases hm : rd data 1 &&& 0x80 = 0x80 <;> simp [hm, declared_payload]
  · intro j hj
    unfold declared_payload
    rw [rd_map_range_zero]
    by_cases hm : rd data 1 &&& 0x80 = 0x80
    · simp only [hm, decide_True, if_true, rd_unmask_loop, rd_zeroed, length_zeroed,
        declared_header_len_eq]
      by_cases hj2 : j < declared_payload_len data
      · have h4 : j % 4 < 4 := Nat.mod_lt _ (by decide)
        rw [if_pos ⟨hj2, by omega⟩, if_pos hj2, rd_key_bytes _ _ _ h4,
          Nat.mod_eq_of_lt (@Nat.xor_lt_two_pow _ _ 8 (rd_lt_of_isBytes hb _)
            (rd_lt_of_isBytes hb _))]
        congr 2; omega
      · rw [if_neg (fun h => hj2 h.1), if_neg hj2]
    · simp only [hm, decide_False, Bool.false_eq_true, if_false, rd_memcpy, rd_zeroed,
        length_zeroed, declared_header_len_eq, Nat.add_zero]
      by_cases hj2 : j < declared_payload_len data
      · rw [if_pos ⟨by omega, by omega, by omega⟩, if_pos hj2, Nat.sub_zero]
      · rw [if_neg (by omega), if_neg hj2]

theorem rd_drop (l : List Nat) (k j : Nat) : rd (l.drop k) j = rd l (k + j) := by
  simp [rd, List.getElem?_drop]

/-- A call of `websocket_build_frame` returns a block only for a payload that is not `NULL`, a
length that is not 0 and an allocator that is not `NULL`. -/
theorem build_frame_success (masked : Int) (payload : Option (List Nat)) (n : Nat)
    (allocator : Bool) (fl : Option Nat) (mask frame : List Nat)
    (hs : (websocket_build_frame masked payload n allocator fl mask).ret = some frame) :
    ∃ P, payload = some P ∧ n ≠ 0 ∧ allocator = true := by
  cases payload with
  | none => simp [websocket_build_frame] at hs
  | some P =>
    refine ⟨P, rfl, ?_, ?_⟩
    · intro h0
      simp [websocket_build_frame, h0] at hs
    · cases allocator with
      | true => rfl
      | false => simp [websocket_build_frame] at hs

/-- A successful call: the allocator is not `NULL` and none of the rejecting tests holds. -/
theorem retrieve_success_closed (data : List Nat) (dataLen : Nat) (allocator : Bool)
    (pl : Option Nat) (package : List Nat) (out : Option Nat) (hb : IsBytes data)
    (hs : websocket_retrieve_payload data dataLen allocator pl = ⟨some package, out⟩) :
    allocator = true ∧ 2 ≤ dataLen ∧
    ¬ (rd data 1 &&& 0x7F = 126 ∧ dataLen < 4) ∧
    ¬ (rd data 1 &&& 0x7F = 127 ∧
      (dataLen < 10 ∨ rd data 2 ≠ 0 ∨ rd data 3 ≠ 0 ∨ rd data 4 ≠ 0 ∨ rd data 5 ≠ 0)) ∧
    declared_header_len data + declared_payload_len data ≤ dataLen ∧
    package = declared_payload data ++ [0] ∧
    out = pl.map fun _ => declared_payload_len data := by
  cases allocator with
  | false => simp [websocket_retrieve_payload] at hs
  | true =>
    rw [retrieve_closed data dataLen pl hb] at hs
    by_cases c : dataLen < 2 ∨ (rd data 1 &&& 0x7F = 126 ∧ dataLen < 4) ∨
        (rd data 1 &&& 0x7F = 127 ∧
          (dataLen < 10 ∨ rd data 2 ≠ 0 ∨ rd data 3 ≠ 0 ∨ rd data 4 ≠ 0 ∨ rd data 5 ≠ 0)) ∨
        dataLen < declared_header_len data + declared_payload_len data
    · rw [if_pos c] at hs
      simp at hs
    · rw [if_neg c] at hs
      simp only [WsResult.mk.injEq, Option.some.injEq] at hs
      refine ⟨rfl, ?_, fun h => c (Or.inr (Or.inl h)), fun h => c (Or.inr (Or.inr (Or.inl h))),
        ?_, hs.1.symm, hs.2.symm⟩
      · exact Nat.le_of_not_lt (fun h => c (Or.inl h))
      · exact Nat.le_of_not_lt (fun h => c (Or.inr (Or.inr (Or.inr h))))

theorem length_declared_payload (data : List Nat) :
    (declared_payload data).length = declared_payload_len data := by
  simp [declared_payload]

theorem rd_declared_payload (data : List Nat) (i : Nat) (hi : i < declared_payload_len data) :
    rd (declared_payload data ++ [0]) i =
      if rd data 1 &&& 0x80 = 0x80 then
        rd data (declared_key_offset data + 4 + i) ^^^ rd data (declared_key_offset data + i % 4)
      else rd data (declared_key_offset data + i) := by
  unfold declared_payload
  rw [rd_map_range_zero, if_pos hi]

theorem rd_cons_pos (a b : Nat) (t : List Nat) (j : Nat) (hj : 1 ≤ j) :
    rd (a :: t) j = rd (b :: t) j := by
  cases j with
  | zero => omega
  | succ k => rfl

theorem unmask_loop_congr (d1 d2 key : List Nat) (H n : Nat) (pkg : List Nat)
    (h : ∀ i, i < n → rd d1 (i + H) = rd d2 (i + H)) :
    unmask_loop d1 key H n pkg = unmask_loop d2 key H n pkg := by
  apply eq_of_rd (by simp)
  intro j _
  rw [rd_unmask_loop, rd_unmask_loop]
  by_cases c : j < n ∧ j < pkg.length
  · rw [if_pos c, if_pos c, h j c.1]
  · rw [if_neg c, if_neg c]

theorem memcpy_src_congr (dst : List Nat) (doff : Nat) (s1 s2 : List Nat) (soff n : Nat)
    (h : ∀ i, i < n → rd s1 (soff + i) = rd s2 (soff + i)) :
    memcpy dst doff s1 soff n = memcpy dst doff s2 soff n := by
  apply eq_of_rd (by simp)
  intro j _
  rw [rd_memcpy, rd_memcpy]
  by_cases c : doff ≤ j ∧ j < doff + n ∧ j < dst.length
  · rw [if_pos c, if_pos c, h (j - doff) (by omega)]
  · rw [if_neg c, if_neg c]

theorem retrieve_header_cons (a b : Nat) (t : List Nat) (dataLen : Nat) :
    retrieve_header (a :: t) dataLen = retrieve_header (b :: t) dataLen := by
  simp only [retrieve_header, memcpy_key, load_ntohs, load_ntohl, rd_cons_succ]

theorem two_le_declared_header_len (data : List Nat) : 2 ≤ declared_header_len data := by
  unfold declared_header_len; split_ifs <;> omega

/-- The instrumented function returns what `websocket_retrieve_payload` returns. -/
theorem traced_result (data : List Nat) (dataLen : Nat) (allocator : Bool) (pl : Option Nat) :
    (websocket_retrieve_payload_traced data dataLen allocator pl).1
      = websocket_retrieve_payload data dataLen allocator pl := by
  unfold websocket_retrieve_payload_traced websocket_retrieve_payload retrieve_header
  cases allocator with
  | false => rfl
  | true =>
    simp only [Bool.true_eq_false, if_false]
    by_cases c2 : dataLen < 2
    · simp only [c2, if_true]
    simp only [c2, if_false]
    by_cases c126 : rd data 1 &&& 0x7F = 126
    · simp only [c126, if_true]
      by_cases c4 : dataLen < 4
      · simp only [c4, if_true]
      · simp only [c4, if_false]
        split_ifs <;> rfl
    · simp only [c126, if_false]
      by_cases c127 : rd data 1 &&& 0x7F = 127
      · simp only [c127, if_true]
        by_cases c10 : dataLen < 10
        · simp only [c10, if_true]
        · simp only [c10, if_false]
          by_cases b2 : rd data 2 ≠ 0
          · simp only [b2, if_true, true_or, ne_eq, not_false_eq_true]
          · by_cases b3 : rd data 3 ≠ 0
            · simp only [b2, b3, if_true, if_false, true_or, or_true, ne_eq,
                not_false_eq_true]
            · by_cases b4 : rd data 4 ≠ 0
              · simp only [b2, b3, b4, if_true, if_false, true_or, or_true, ne_eq,
                  not_false_eq_true]
              · by_cases b5 : rd data 5 ≠ 0
                · simp only [b2, b3, b4, b5, if_true, if_false, true_or, or_true, ne_eq,
                    not_false_eq_true]
                · simp only [b2, b3, b4, b5, if_false, or_self]
                  split_ifs <;> rfl
      · simp only [c127, if_false]
        split_ifs <;> rfl

theorem isBytes_append {a b : List Nat} (ha : IsBytes a) (hb : IsBytes b) : IsBytes (a ++ b) := by
  intro x hx
  rcases List.mem_append.mp hx with h | h
  · exact ha x h
  · exact hb x h

/-! ## The claims -/

/-- C1 (amended): round trip.  For every non-empty payload `P` of at most `0xFFFFFFFF` bytes,
every value of `masked` and every mask key, `websocket_build_frame` returns a frame and its
length `L`, and `websocket_retrieve_payload` applied to the `L` bytes of that frame succeeds,
reports the length of `P` and returns a block that starts with exactly the bytes of `P`. -/
theorem websocket_roundtrip (masked : Int) (P mask : List Nat) (fl0 pl0 : Nat)
    (hne : P ≠ []) (hlen : P.length ≤ 0xFFFFFFFF) (hP : IsBytes P) (hmask : IsBytes mask) :
    ∃ frame L,
      websocket_build_frame masked (some P) P.length true (some fl0) mask
        = ⟨some frame, some L⟩ ∧
      ∀ mem, mem.take L = frame.take L →
        ∃ package,
          websocket_retrieve_payload mem L true (some pl0) = ⟨some package, some P.length⟩ ∧
          package.take P.length = P := by
  obtain ⟨hb, hr⟩ := roundtrip_core masked P mask (some fl0) (some pl0) hne hlen hP hmask
  exact ⟨frame_image masked mask P P.length, header_len masked P.length + P.length, hb,
    fun mem hmem => ⟨P ++ [0], hr mem hmem, List.take_left _ _⟩⟩

/-- Witness of C1: the payload `[1, 2, 3]`, masked with the key `[9, 8, 7, 6]`. -/
theorem websocket_roundtrip_witness :
    ([1, 2, 3] : List Nat) ≠ [] ∧ IsBytes [1, 2, 3] ∧ IsBytes [9, 8, 7, 6] ∧
    ∃ frame L,
      websocket_build_frame 1 (some [1, 2, 3]) ([1, 2, 3] : List Nat).length true (some 0)
        [9, 8, 7, 6] = ⟨some frame, some L⟩ ∧
      ∀ mem, mem.take L = frame.take L →
        ∃ package,
          websocket_retrieve_payload mem L true (some 0)
            = ⟨some package, some ([1, 2, 3] : List Nat).length⟩ ∧
          package.take ([1, 2, 3] : List Nat).length = [1, 2, 3] :=
  ⟨by decide, by decide, by decide,
    websocket_roundtrip 1 [1, 2, 3] [9, 8, 7, 6] 0 0 (by decide) (by decide) (by decide)
      (by decide)⟩

/-- Counterexample to C1 as stated: for a payload of `2 ^ 32` zero bytes, not masked,
`websocket_build_frame` returns a frame of `2 ^ 32 + 10` bytes, and `websocket_retrieve_payload`
on that frame reports a payload of 0 bytes and returns a block holding only the spare zero. -/
theorem oversize_roundtrip_counterexample :
    ∃ frame L,
      websocket_build_frame 0 (some (List.replicate 4294967296 0)) 4294967296 true (some 0)
        [0, 0, 0, 0] = ⟨some frame, some L⟩ ∧
      websocket_retrieve_payload frame L true (some 0) = ⟨some [0], some 0⟩ ∧
      (List.replicate 4294967296 0).length ≠ 0 :=
  ⟨_, _, (oversize_core (List.replicate 4294967296 0) [0, 0, 0, 0] (by decide)).1,
    (oversize_core (List.replicate 4294967296 0) [0, 0, 0, 0] (by decide)).2.1,
    by rw [List.length_replicate]; decide⟩

/-- C3 (amended): length-form selection in `websocket_build_frame`.  For a payload of `n`
bytes, `1 ≤ n ≤ 0xFFFFFFFF`, the function returns a frame of length `L` in which: if `n ≤ 125`
the low 7 bits of byte 1 are `n` and nothing but the mask key stands before the payload
(`L = 2 + M + n`, with `M` the 4 bytes of key when masked); if `126 ≤ n ≤ 0xFFFF` the low 7 bits
of byte 1 are 126 and bytes 2..3 hold `n` as a 16-bit big-endian integer (`L = 4 + M + n`); if
`0xFFFF < n` the low 7 bits of byte 1 are 127, bytes 2..5 are zero and bytes 6..9 hold `n` as a
32-bit big-endian integer (`L = 10 + M + n`).  In each form the frame decodes back to the
length `n`. -/
theorem build_frame_length_form (masked : Int) (P mask : List Nat) (fl0 pl0 : Nat)
    (hne : P ≠ []) (hlen : P.length ≤ 0xFFFFFFFF) :
    ∃ frame L,
      websocket_build_frame masked (some P) P.length true (some fl0) mask
        = ⟨some frame, some L⟩ ∧
      (P.length ≤ 125 →
        rd frame 1 &&& 0x7F = P.length ∧
        L = 2 + (if masked ≠ 0 then 4 else 0) + P.length) ∧
      (126 ≤ P.length → P.length ≤ 0xFFFF →
        rd frame 1 &&& 0x7F = 126 ∧
        rd frame 2 = P.length / 256 ∧ rd frame 3 = P.length % 256 ∧
        load_ntohs frame 2 = P.length ∧
        L = 4 + (if masked ≠ 0 then 4 else 0) + P.length) ∧
      (0xFFFF < P.length →
        rd frame 1 &&& 0x7F = 127 ∧
        rd frame 2 = 0 ∧ rd frame 3 = 0 ∧ rd frame 4 = 0 ∧ rd frame 5 = 0 ∧
        rd frame 6 = P.length / 2 ^ 24 ∧ rd frame 7 = P.length / 2 ^ 16 % 256 ∧
        rd frame 8 = P.length / 2 ^ 8 % 256 ∧ rd frame 9 = P.length % 256 ∧
        load_ntohl frame 6 = P.length ∧
        L = 10 + (if masked ≠ 0 then 4 else 0) + P.length) ∧
      (websocket_retrieve_payload frame L true (some pl0)).out_len = some P.length := by
  have h0 : P.length ≠ 0 := fun h => hne (List.length_eq_zero.mp h)
  obtain ⟨hA, hB, hC⟩ := length_form_core masked P mask P.length
  refine ⟨frame_image masked mask P P.length, header_len masked P.length + P.length,
    build_frame_eq masked P mask P.length (some fl0) h0 (by unfold PTRDIFF_MAX; omega),
    ?_, ?_, ?_, ?_⟩
  · intro c1
    obtain ⟨h1, h2⟩ := hA c1
    exact ⟨h1, by rw [h2]⟩
  · intro c1 c2
    obtain ⟨h1, h2, h3, h4⟩ := hB c1 c2
    refine ⟨h1, h2, h3, ?_, by rw [h4]⟩
    unfold load_ntohs
    rw [h2, h3]; omega
  · intro c1
    obtain ⟨h1, h2, h3, h4, h5, h6, h7, h8, h9, h10⟩ := hC c1
    refine ⟨h1, h2, h3, h4, h5, ?_, h7, h8, h9, ?_, by rw [h10]⟩
    · rw [h6]; omega
    · unfold load_ntohl
      simp only [Nat.reduceAdd]
      rw [h6, h7, h8, h9]; omega
  · have hmod : P.length % 2 ^ 32 = P.length := Nat.mod_eq_of_lt (by omega)
    rw [retrieve_reduce masked mask P P.length _ _ (some pl0) (fun j _ _ => rfl),
      if_neg (by omega), hmod]
    rfl

/-- Witness of C3: a payload of 65536 bytes, masked with the key `[9, 8, 7, 6]`; the frame has
the 64-bit length form, bytes 6..9 hold 65536 and the frame decodes back to 65536. -/
theorem build_frame_length_form_witness :
    List.replicate 65536 7 ≠ [] ∧ (List.replicate 65536 7).length ≤ 0xFFFFFFFF ∧
    ∃ frame L,
      websocket_build_frame 1 (some (List.replicate 65536 7)) (List.replicate 65536 7).length
        true (some 0) [9, 8, 7, 6] = ⟨some frame, some L⟩ ∧
      rd frame 1 &&& 0x7F = 127 ∧
      [rd frame 2, rd frame 3, rd frame 4, rd frame 5] = [0, 0, 0, 0] ∧
      [rd frame 6, rd frame 7, rd frame 8, rd frame 9] = [0, 1, 0, 0] ∧
      load_ntohl frame 6 = 65536 ∧
      L = 10 + 4 + 65536 ∧
      (websocket_retrieve_payload frame L true (some 0)).out_len = some 65536 := by
  have hl : (List.replicate 65536 7).length = 65536 := List.length_replicate 65536 7
  have hne : List.replicate 65536 7 ≠ [] := by
    intro h
    have := congrArg List.length h
    rw [hl] at this
    exact absurd this (by decide)
  have hle : (List.replicate 65536 7).length ≤ 0xFFFFFFFF := by rw [hl]; decide
  obtain ⟨frame, L, hb, -, -, h64, hdec⟩ :=
    build_frame_length_form 1 (List.replicate 65536 7) [9, 8, 7, 6] 0 0 hne hle
  obtain ⟨h1, h2, h3, h4, h5, h6, h7, h8, h9, h10, h11⟩ := h64 (by rw [hl]; decide)
  rw [hl] at h6 h7 h8 h9 h10 h11 hdec
  refine ⟨hne, hle, frame, L, hb, h1, ?_, ?_, h10, ?_, hdec⟩
  · rw [h2, h3, h4, h5]
  · rw [h6, h7, h8, h9]; decide
  · rw [h11]; decide

/-- Counterexample to C3 as stated: for a payload of `2 ^ 32` zero bytes, which is longer than
`0xFFFF`, `websocket_build_frame` returns a frame with the length code 127 in which bytes 6..9
are all zero; they hold 0, not `2 ^ 32`, and the frame decodes back to the length 0. -/
theorem oversize_length_form_counterexample :
    ∃ frame L,
      websocket_build_frame 0 (some (List.replicate 4294967296 0)) 4294967296 true (some 0)
        [0, 0, 0, 0] = ⟨some frame, some L⟩ ∧
      rd frame 1 &&& 0x7F = 127 ∧
      [rd frame 6, rd frame 7, rd frame 8, rd frame 9] = [0, 0, 0, 0] ∧
      load_ntohl frame 6 ≠ 4294967296 ∧
      (websocket_retrieve_payload frame L true (some 0)).out_len = some 0 ∧
      (websocket_retrieve_payload frame L true (some 0)).out_len ≠ some 4294967296 := by
  obtain ⟨hb, hr, -⟩ := oversize_core (List.replicate 4294967296 0) [0, 0, 0, 0] (by decide)
  obtain ⟨-, -, hC⟩ := length_form_core 0 (List.replicate 4294967296 0) [0, 0, 0, 0] 4294967296
  obtain ⟨h1, -, -, -, -, h6, h7, h8, h9, -⟩ := hC (by decide)
  refine ⟨_, _, hb, h1, ?_, ?_, ?_, ?_⟩
  · rw [h6, h7, h8, h9]; decide
  · unfold load_ntohl
    simp only [Nat.reduceAdd]
    rw [h6, h7, h8, h9]; decide
  · rw [hr]
  · rw [hr]; decide

/-- C4: masking in `websocket_build_frame`.  When `masked` is set, for the mask key
`K = [a, b, c, d]` the frame holds `K` in the 4 bytes right after the length field (offset
`2 + len_size_of n`), which are the 4 bytes right before the payload (offset
`header_len masked n`); payload byte `i` of the frame is `P[i] XOR K[i mod 4]`, and XOR-ing it
with `K[i mod 4]` again gives back `P[i]`. -/
theorem build_frame_masking (masked : Int) (P : List Nat) (a b c d : Nat) (fl : Option Nat)
    (hmk : masked ≠ 0) (hne : P ≠ []) (hmax : P.length ≤ PTRDIFF_MAX) (hP : IsBytes P)
    (hK : IsBytes [a, b, c, d]) :
    ∃ frame,
      (websocket_build_frame masked (some P) P.length true fl [a, b, c, d]).ret = some frame ∧
      (frame.drop (2 + len_size_of P.length)).take 4 = [a, b, c, d] ∧
      header_len masked P.length = 2 + len_size_of P.length + 4 ∧
      ∀ i, i < P.length →
        rd frame (header_len masked P.length + i) = rd P i ^^^ rd [a, b, c, d] (i % 4) ∧
        rd frame (header_len masked P.length + i) ^^^ rd [a, b, c, d] (i % 4) = rd P i := by
  have h0 : P.length ≠ 0 := fun h => hne (List.length_eq_zero.mp h)
  have hH : header_len masked P.length = 2 + len_size_of P.length + 4 := by
    unfold header_len; simp [hmk]
  refine ⟨frame_image masked [a, b, c, d] P P.length, ?_, ?_, hH, ?_⟩
  · rw [build_frame_eq masked P [a, b, c, d] P.length fl h0 hmax]
  · apply eq_of_rd
    · have := length_frame_image masked [a, b, c, d] P P.length
      simp only [List.length_take, List.length_drop, List.length_cons, List.length_nil, this]
      omega
    · intro j hj
      have hj4 : j < 4 := by
        simp only [List.length_take] at hj; omega
      rw [rd_take _ _ _ hj4]
      have : rd (List.drop (2 + len_size_of P.length) (frame_image masked [a, b, c, d] P P.length)) j
          = rd (frame_image masked [a, b, c, d] P P.length) (2 + len_size_of P.length + j) := by
        simp [rd, List.getElem?_drop]
      rw [this, rd_frame_image_key masked [a, b, c, d] P P.length j hmk hj4]
  · intro i hi
    have h4 : i % 4 < 4 := Nat.mod_lt _ (by decide)
    have hb : rd (frame_image masked [a, b, c, d] P P.length) (header_len masked P.length + i)
        = rd P i ^^^ rd [a, b, c, d] (i % 4) := by
      rw [rd_frame_image_body, if_pos hi, if_pos hmk]
      exact xor_byte _ _ (rd_lt_of_isBytes hP i) (rd_lt_of_isBytes hK _)
    exact ⟨hb, by rw [hb, Nat.xor_cancel_right]⟩

/-- Witness of C4: the payload `[1, 2, 3, 4, 5]`, masked with the key `[9, 8, 7, 6]`. -/
theorem build_frame_masking_witness :
    (1 : Int) ≠ 0 ∧ IsBytes [1, 2, 3, 4, 5] ∧ IsBytes [9, 8, 7, 6] ∧
    ∃ frame,
      (websocket_build_frame 1 (some [1, 2, 3, 4, 5]) ([1, 2, 3, 4, 5] : List Nat).length true
        (some 0) [9, 8, 7, 6]).ret = some frame ∧
      (frame.drop (2 + len_size_of ([1, 2, 3, 4, 5] : List Nat).length)).take 4 = [9, 8, 7, 6] ∧
      header_len 1 ([1, 2, 3, 4, 5] : List Nat).length
        = 2 + len_size_of ([1, 2, 3, 4, 5] : List Nat).length + 4 ∧
      ∀ i, i < ([1, 2, 3, 4, 5] : List Nat).length →
        rd frame (header_len 1 ([1, 2, 3, 4, 5] : List Nat).length + i)
          = rd [1, 2, 3, 4, 5] i ^^^ rd [9, 8, 7, 6] (i % 4) ∧
        rd frame (header_len 1 ([1, 2, 3, 4, 5] : List Nat).length + i) ^^^ rd [9, 8, 7, 6] (i % 4)
          = rd [1, 2, 3, 4, 5] i :=
  ⟨by decide, by decide, by decide,
    build_frame_masking 1 [1, 2, 3, 4, 5] 9 8 7 6 (some 0) (by decide) (by decide) (by decide)
      (by decide) (by decide)⟩

/-- C5: `websocket_retrieve_payload` rejects a 64-bit length whose high half is not zero.  For
every input of at least 10 bytes whose byte 1 has its low 7 bits equal to 127 and in which one
of the bytes 2, 3, 4, 5 is not zero, it returns no payload (and leaves `*payload_len` as it
was), whatever the other bytes are. -/
theorem retrieve_rejects_high_length_bits (data : List Nat) (dataLen : Nat) (allocator : Bool)
    (pl : Option Nat) (h10 : 10 ≤ dataLen) (hcode : rd data 1 &&& 0x7F = 127)
    (hhigh : rd data 2 ≠ 0 ∨ rd data 3 ≠ 0 ∨ rd data 4 ≠ 0 ∨ rd data 5 ≠ 0) :
    websocket_retrieve_payload data dataLen allocator pl = ⟨none, pl⟩ :=
  malformed_core data dataLen allocator pl h10 hcode hhigh

/-- Witness of C5: a header announcing `2 ^ 32 + 1` bytes, followed by one byte. -/
theorem retrieve_rejects_high_length_bits_witness :
    10 ≤ ([0x82, 127, 0, 0, 0, 1, 0, 0, 0, 1, 7] : List Nat).length ∧
    rd [0x82, 127, 0, 0, 0, 1, 0, 0, 0, 1, 7] 1 &&& 0x7F = 127 ∧
    websocket_retrieve_payload [0x82, 127, 0, 0, 0, 1, 0, 0, 0, 1, 7]
      ([0x82, 127, 0, 0, 0, 1, 0, 0, 0, 1, 7] : List Nat).length true (some 3) = ⟨none, some 3⟩ :=
  ⟨by decide, by decide,
    retrieve_rejects_high_length_bits [0x82, 127, 0, 0, 0, 1, 0, 0, 0, 1, 7] _ true (some 3)
      (by decide) (by decide) (by decide)⟩

/-- C6 (amended): the length `websocket_retrieve_payload` reports is the payload length alone.
Whenever it succeeds, the reported length `m` is the payload length the header declares, and the
frame occupies the header length (2, 4 or 10 bytes, and 4 more with the mask bit) plus `m` of
the input bytes; in particular for the frame `F` that `websocket_build_frame` returns for a
payload `P` of at most `0xFFFFFFFF` bytes, with frame length `L`, retrieving from `F` reports
the length of `P`, which is `L` less the header length. -/
theorem retrieve_reports_payload_length (data : List Nat) (dataLen : Nat) (allocator : Bool)
    (pl : Option Nat) (package : List Nat) (m : Nat) (masked : Int) (P mask : List Nat)
    (fl0 pl0 : Nat) (hb : IsBytes data)
    (hs : websocket_retrieve_payload data dataLen allocator pl = ⟨some package, some m⟩)
    (hne : P ≠ []) (hlen : P.length ≤ 0xFFFFFFFF) :
    (m = declared_payload_len data ∧ declared_header_len data + m ≤ dataLen) ∧
    ∃ frame L,
      websocket_build_frame masked (some P) P.length true (some fl0) mask
        = ⟨some frame, some L⟩ ∧
      L = header_len masked P.length + P.length ∧
      header_len masked P.length = declared_header_len frame ∧
      (websocket_retrieve_payload frame L true (some pl0)).out_len = some P.length := by
  have h0 : P.length ≠ 0 := fun h => hne (List.length_eq_zero.mp h)
  obtain ⟨h1, h2, -⟩ := retrieve_success_core data dataLen allocator pl package m hb hs
  refine ⟨⟨h1, h2⟩, frame_image masked mask P P.length, header_len masked P.length + P.length,
    build_frame_eq masked P mask P.length (some fl0) h0 (by unfold PTRDIFF_MAX; omega), rfl,
    ?_, ?_⟩
  · obtain ⟨hb1, hb2⟩ := len_byte_bits masked P.length
    unfold declared_header_len header_len len_size_of
    rw [rd_frame_image_one, hb1, hb2]
    have hM : (if (if masked ≠ 0 then 0x80 else 0) = 0x80 then 4 else 0)
        = if masked ≠ 0 then 4 else 0 := by
      by_cases hmk : masked = 0 <;> simp [hmk]
    rw [hM]
    by_cases c1 : P.length ≤ 125
    · have e1 : ¬ P.length = 126 := by omega
      have e2 : ¬ P.length = 127 := by omega
      simp [c1, e1, e2]
    · by_cases c2 : P.length ≤ 0xffff
      · simp [c1, c2]
      · simp [c1, c2]
  · have hmod : P.length % 2 ^ 32 = P.length := Nat.mod_eq_of_lt (by omega)
    rw [retrieve_reduce masked mask P P.length _ _ (some pl0) (fun j _ _ => rfl),
      if_neg (by omega), hmod]
    rfl

/-- Witness of C6: retrieving from the 3-byte frame of the payload `[1]` reports 1. -/
theorem retrieve_reports_payload_length_witness :
    IsBytes [0x82, 1, 1, 0] ∧
    websocket_retrieve_payload [0x82, 1, 1, 0] 3 true (some 0) = ⟨some [1, 0], some 1⟩ ∧
    ((1 = declared_payload_len [0x82, 1, 1, 0] ∧ declared_header_len [0x82, 1, 1, 0] + 1 ≤ 3) ∧
    ∃ frame L,
      websocket_build_frame 0 (some [1]) ([1] : List Nat).length true (some 0) []
        = ⟨some frame, some L⟩ ∧
      L = header_len 0 ([1] : List Nat).length + ([1] : List Nat).length ∧
      header_len 0 ([1] : List Nat).length = declared_header_len frame ∧
      (websocket_retrieve_payload frame L true (some 0)).out_len
        = some ([1] : List Nat).length) :=
  ⟨by decide, by decide,
    retrieve_reports_payload_length [0x82, 1, 1, 0] 3 true (some 0) [1, 0] 1 0 [1] [] 0 0
      (by decide) (by decide) (by decide) (by decide)⟩

/-- Counterexample to C6 as stated: the frame built for the payload `[1]` has length 3, and
retrieving from these 3 bytes reports the length 1, not 3. -/
theorem consumed_length_counterexample :
    websocket_build_frame 0 (some [1]) 1 true (some 0) [] = ⟨some [0x82, 1, 1, 0], some 3⟩ ∧
    websocket_retrieve_payload [0x82, 1, 1, 0] 3 true (some 0) = ⟨some [1, 0], some 1⟩ ∧
    (websocket_retrieve_payload [0x82, 1, 1, 0] 3 true (some 0)).out_len ≠ some 3 := by
  decide

/-- C7 (amended): `websocket_retrieve_payload` does not keep "need more data" apart from a
decode failure.  For an input with a malformed length field (64-bit form, one of the high 4
bytes not zero) and for a well-formed frame that is merely cut short (the first `n < L` bytes of
a frame built from a payload of at most `0xFFFFFFFF` bytes) it returns the same result: no
payload, with `*payload_len` as it was. -/
theorem retrieve_same_result_malformed_truncated (bad : List Nat) (badLen : Nat) (masked : Int)
    (P mask : List Nat) (fl0 : Nat) (allocator : Bool) (pl : Option Nat)
    (h10 : 10 ≤ badLen) (hcode : rd bad 1 &&& 0x7F = 127)
    (hhigh : rd bad 2 ≠ 0 ∨ rd bad 3 ≠ 0 ∨ rd bad 4 ≠ 0 ∨ rd bad 5 ≠ 0)
    (hne : P ≠ []) (hlen : P.length ≤ 0xFFFFFFFF) :
    ∃ frame L,
      websocket_build_frame masked (some P) P.length true (some fl0) mask
        = ⟨some frame, some L⟩ ∧
      ∀ n, n < L →
        websocket_retrieve_payload (frame.take n) n allocator pl
          = websocket_retrieve_payload bad badLen allocator pl ∧
        websocket_retrieve_payload bad badLen allocator pl = ⟨none, pl⟩ := by
  have h0 : P.length ≠ 0 := fun h => hne (List.length_eq_zero.mp h)
  refine ⟨frame_image masked mask P P.length, header_len masked P.length + P.length,
    build_frame_eq masked P mask P.length (some fl0) h0 (by unfold PTRDIFF_MAX; omega), ?_⟩
  intro n hn
  rw [malformed_core bad badLen allocator pl h10 hcode hhigh,
    truncated_core masked P mask n _ allocator pl hlen hn (by rw [List.take_take, Nat.min_self])]
  exact ⟨rfl, rfl⟩

/-- Witness of C7: a header announcing `2 ^ 32 + 1` bytes, and the frame of `[1, 2, 3]`. -/
theorem retrieve_same_result_malformed_truncated_witness :
    10 ≤ ([0x82, 127, 0, 0, 0, 1, 0, 0, 0, 1, 7] : List Nat).length ∧
    ([1, 2, 3] : List Nat) ≠ [] ∧
    ∃ frame L,
      websocket_build_frame 0 (some [1, 2, 3]) ([1, 2, 3] : List Nat).length true (some 0) []
        = ⟨some frame, some L⟩ ∧
      ∀ n, n < L →
        websocket_retrieve_payload (frame.take n) n true (some 3)
          = websocket_retrieve_payload [0x82, 127, 0, 0, 0, 1, 0, 0, 0, 1, 7]
              ([0x82, 127, 0, 0, 0, 1, 0, 0, 0, 1, 7] : List Nat).length true (some 3) ∧
        websocket_retrieve_payload [0x82, 127, 0, 0, 0, 1, 0, 0, 0, 1, 7]
          ([0x82, 127, 0, 0, 0, 1, 0, 0, 0, 1, 7] : List Nat).length true (some 3)
          = ⟨none, some 3⟩ :=
  ⟨by decide, by decide,
    retrieve_same_result_malformed_truncated [0x82, 127, 0, 0, 0, 1, 0, 0, 0, 1, 7] _ 0
      [1, 2, 3] [] 0 true (some 3) (by decide) (by decide) (by decide) (by decide) (by decide)⟩

/-- Counterexample to C7 as stated: the result for a frame whose 64-bit length has a non-zero
high byte equals the result for the frame of `[1, 2, 3]` cut after 4 of its 5 bytes. -/
theorem malformed_vs_truncated_counterexample :
    websocket_build_frame 0 (some [1, 2, 3]) 3 true (some 0) []
      = ⟨some [0x82, 3, 1, 2, 3, 0], some 5⟩ ∧
    websocket_retrieve_payload [0x82, 127, 0, 0, 0, 1, 0, 0, 0, 1, 7] 11 true (some 9)
      = websocket_retrieve_payload [0x82, 3, 1, 2] 4 true (some 9) := by
  decide

/-- C8: `websocket_build_frame` fails on an empty payload.  For a `NULL` payload, and for a
payload length of 0, with any value of `masked`, it returns no frame and leaves `*frame_len` as
it was. -/
theorem build_frame_rejects_empty (masked : Int) (payload : List Nat) (payload_len : Nat)
    (allocator : Bool) (frame_len : Option Nat) (mask : List Nat) :
    websocket_build_frame masked none payload_len allocator frame_len mask = ⟨none, frame_len⟩ ∧
    websocket_build_frame masked (some payload) 0 allocator frame_len mask
      = ⟨none, frame_len⟩ := by
  constructor
  · rfl
  · simp [websocket_build_frame]

/-- C9 (the code at the failing input): for a payload of `2 ^ 32` bytes
`websocket_build_frame` returns a frame, of `2 ^ 32 + 10` bytes, in which the length code is 127
and the 8 bytes of the length extension are all zero: the frame declares a payload of 0 bytes. -/
theorem build_frame_accepts_oversize_payload :
    ∃ frame,
      websocket_build_frame 0 (some (List.replicate 4294967296 0)) 4294967296 true (some 0)
        [0, 0, 0, 0] = ⟨some frame, some 4294967306⟩ ∧
      rd frame 1 = 127 ∧
      [rd frame 2, rd frame 3, rd frame 4, rd frame 5, rd frame 6, rd frame 7, rd frame 8,
        rd frame 9] = [0, 0, 0, 0, 0, 0, 0, 0] ∧
      load_ntohl frame 6 = 0 := by
  obtain ⟨-, -, hC⟩ := length_form_core 0 (List.replicate 4294967296 0) [0, 0, 0, 0] 4294967296
  obtain ⟨-, h2, h3, h4, h5, h6, h7, h8, h9, -⟩ := hC (by decide)
  refine ⟨_, (oversize_core (List.replicate 4294967296 0) [0, 0, 0, 0] (by decide)).1, rfl, ?_, ?_⟩
  · rw [h2, h3, h4, h5, h6, h7, h8, h9]; decide
  · unfold load_ntohl
    simp only [Nat.reduceAdd]
    rw [h6, h7, h8, h9]; decide

/-- C10: the accept value.  For every non-empty key, the string
`websocket_generate_sec_websocket_accept` returns is base64 of SHA-1 of the key followed by
`258EAFA5-E914-47DA-95CA-C5AB0DC85B11`, and for the key `dGhlIHNhbXBsZSBub25jZQ==` it is
`s3pPLMBiTxaQ9kYGzzhZRbK+xOo=`. -/
theorem sec_websocket_accept_value (key : List Nat) (hkey : strlen key ≠ 0) :
    (∃ buf, websocket_generate_sec_websocket_accept (some key) true = some buf ∧
      cstr buf = mbedtls_base64_encode
        (mbedtls_sha1 (cstr key ++ cstr (c_literal "258EAFA5-E914-47DA-95CA-C5AB0DC85B11")))) ∧
    (websocket_generate_sec_websocket_accept (some (c_literal "dGhlIHNhbXBsZSBub25jZQ==")) true).map
        cstr = some (cstr (c_literal "s3pPLMBiTxaQ9kYGzzhZRbK+xOo=")) := by
  refine ⟨⟨_, accept_core key hkey, ?_⟩, accept_test_vector⟩
  rw [show ([0, 0] : List Nat) = 0 :: [0] from rfl, cstr_append_zero _ _ (base64_ne_zero _)]
  rfl

/-- Witness of C10: the key of the RFC 6455 example. -/
theorem sec_websocket_accept_value_witness :
    strlen (c_literal "dGhlIHNhbXBsZSBub25jZQ==") ≠ 0 ∧
    (∃ buf, websocket_generate_sec_websocket_accept
        (some (c_literal "dGhlIHNhbXBsZSBub25jZQ==")) true = some buf ∧
      cstr buf = mbedtls_base64_encode
        (mbedtls_sha1 (cstr (c_literal "dGhlIHNhbXBsZSBub25jZQ==")
          ++ cstr (c_literal "258EAFA5-E914-47DA-95CA-C5AB0DC85B11")))) ∧
    (websocket_generate_sec_websocket_accept (some (c_literal "dGhlIHNhbXBsZSBub25jZQ==")) true).map
        cstr = some (cstr (c_literal "s3pPLMBiTxaQ9kYGzzhZRbK+xOo=")) :=
  ⟨by decide, sec_websocket_accept_value (c_literal "dGhlIHNhbXBsZSBub25jZQ==") (by decide)⟩

end WsTlsBasic

/-! ## Configuration loading: facts and claims -/

namespace ClientMain

theorem extract_string_ne (key : String) (iter : json_object_iter) (h : iter.key ≠ key) :
    json_iter_extract_string key iter = none := by
  simp [json_iter_extract_string, h]

theorem extract_int_ne (key : String) (iter : json_object_iter) (h : iter.key ≠ key) :
    json_iter_extract_int key iter = none := by
  simp [json_iter_extract_int, h]

/-- A member whose key is none of the eleven leaves the configuration as it was. -/
theorem member_unrecognized (ssa : Option String → String → Option String) (cf : server_config)
    (key : String) (val : json_object) (hkey : key ∉ recognized_keys) :
    parse_config_member ssa cf ⟨key, val⟩ = cf := by
  simp only [recognized_keys, List.mem_cons, List.mem_singleton, List.not_mem_nil, not_or,
    or_false] at hkey
  obtain ⟨k1, k2, k3, k4, k5, k6, k7, k8, k9, k10, k11⟩ := hkey
  unfold parse_config_member
  rw [extract_string_ne _ _ k1, extract_int_ne _ _ k2, extract_string_ne _ _ k3,
    extract_int_ne _ _ k4, extract_string_ne _ _ k5, extract_string_ne _ _ k6,
    extract_string_ne _ _ k7, extract_string_ne _ _ k8, extract_string_ne _ _ k9,
    extract_string_ne _ _ k10, extract_int_ne _ _ k11]

/-- A member whose key is not `timeout` leaves `idle_timeout` as it was. -/
theorem member_idle_timeout (ssa : Option String → String → Option String) (cf : server_config)
    (key : String) (val : json_object) (hkey : key ≠ "timeout") :
    (parse_config_member ssa cf ⟨key, val⟩).idle_timeout = cf.idle_timeout := by
  unfold parse_config_member
  rw [extract_int_ne "timeout" ⟨key, val⟩ hkey]
  repeat (first | rfl | split)

/-- The member `timeout` with an `int` value sets `idle_timeout`. -/
theorem member_timeout (ssa : Option String → String → Option String) (cf : server_config)
    (t : Int) :
    (parse_config_member ssa cf ⟨"timeout", json_object.int t⟩).idle_timeout
      = to_unsigned_int (t * SECONDS_PER_MINUTE) := by
  unfold parse_config_member
  rw [extract_string_ne "local_address" ⟨"timeout", json_object.int t⟩
      (show ("timeout" : String) ≠ "local_address" by decide),
    extract_int_ne "local_port" ⟨"timeout", json_object.int t⟩
      (show ("timeout" : String) ≠ "local_port" by decide),
    extract_string_ne "server" ⟨"timeout", json_object.int t⟩
      (show ("timeout" : String) ≠ "server" by decide),
    extract_int_ne "server_port" ⟨"timeout", json_object.int t⟩
      (show ("timeout" : String) ≠ "server_port" by decide),
    extract_string_ne "password" ⟨"timeout", json_object.int t⟩
      (show ("timeout" : String) ≠ "password" by decide),
    extract_string_ne "method" ⟨"timeout", json_object.int t⟩
      (show ("timeout" : String) ≠ "method" by decide),
    extract_string_ne "protocol" ⟨"timeout", json_object.int t⟩
      (show ("timeout" : String) ≠ "protocol" by decide),
    extract_string_ne "protocol_param" ⟨"timeout", json_object.int t⟩
      (show ("timeout" : String) ≠ "protocol_param" by decide),
    extract_string_ne "obfs" ⟨"timeout", json_object.int t⟩
      (show ("timeout" : String) ≠ "obfs" by decide),
    extract_string_ne "obfs_param" ⟨"timeout", json_object.int t⟩
      (show ("timeout" : String) ≠ "obfs_param" by decide)]
  rfl

theorem foldl_idle_timeout (ssa : Option String → String → Option String)
    (post : List (String × json_object)) (cf : server_config)
    (h : ∀ m ∈ post, m.1 ≠ "timeout") :
    (post.foldl (fun cf m => parse_config_member ssa cf ⟨m.1, m.2⟩) cf).idle_timeout
      = cf.idle_timeout := by
  induction post generalizing cf with
  | nil => rfl
  | cons m rest ih =>
    rw [List.foldl_cons, ih _ (fun x hx => h x (List.mem_cons_of_mem _ hx)),
      member_idle_timeout ssa cf m.1 m.2 (h m (List.mem_cons_self _ _))]

/-- The `idle_timeout` left by `parse_config_file` for an object with distinct keys that holds
an integer `timeout`. -/
theorem timeout_core (ssa : Option String → String → Option String) (file : String)
    (cf : server_config) (obj : List (String × json_object)) (t : Int)
    (hnodup : (obj.map Prod.fst).Nodup) (hmem : ("timeout", json_object.int t) ∈ obj) :
    (parse_config_file (fun _ => some obj) ssa file cf).2.idle_timeout
      = to_unsigned_int (t * SECONDS_PER_MINUTE) := by
  obtain ⟨pre, post, rfl⟩ := List.append_of_mem hmem
  have hpost : ∀ m ∈ post, m.1 ≠ "timeout" := by
    intro m hm hk
    rw [List.map_append, List.map_cons, List.nodup_append] at hnodup
    have := (List.nodup_cons.mp hnodup.2.1).1
    exact this (List.mem_map.mpr ⟨m, hm, hk⟩)
  unfold parse_config_file
  simp only [List.foldl_append, List.foldl_cons]
  rw [foldl_idle_timeout ssa post _ hpost, member_timeout]

/-- C11 (amended): timeout unit.  For every configuration object (with distinct keys) holding
an integer `timeout` = `t`, `parse_config_file` stores `idle_timeout = t * 1000`, the product
with the macro `SECONDS_PER_MINUTE`, converted to `unsigned int`; for `0 ≤ t ≤ 2147483`, where
the product fits an `int`, that is the number `t * 1000`. -/
theorem parse_config_timeout (ssa : Option String → String → Option String) (file : String)
    (cf : server_config) (obj : List (String × json_object)) (t : Int)
    (hnodup : (obj.map Prod.fst).Nodup) (hmem : ("timeout", json_object.int t) ∈ obj) :
    (parse_config_file (fun _ => some obj) ssa file cf).1 = true ∧
    (parse_config_file (fun _ => some obj) ssa file cf).2.idle_timeout
      = to_unsigned_int (t * 1000) ∧
    (0 ≤ t → t ≤ 2147483 →
      ((parse_config_file (fun _ => some obj) ssa file cf).2.idle_timeout : Int) = t * 1000) := by
  have h := timeout_core ssa file cf obj t hnodup hmem
  refine ⟨rfl, h, fun h0 h1 => ?_⟩
  rw [h]
  unfold to_unsigned_int SECONDS_PER_MINUTE
  have : (t * 1000) % 2 ^ 32 = t * 1000 := Int.emod_eq_of_lt (by omega) (by omega)
  rw [this]
  exact Int.toNat_of_nonneg (by omega)

/-- Witness of C11: the object `{"server": "a", "timeout": 5}`. -/
theorem parse_config_timeout_witness :
    ([("server", json_object.string "a"), ("timeout", json_object.int 5)].map Prod.fst).Nodup ∧
    (parse_config_file
        (fun _ => some [("server", json_object.string "a"), ("timeout", json_object.int 5)])
        (fun _ s => some s) "config.json" (config_create (fun _ s => some s))).1 = true ∧
    (parse_config_file
        (fun _ => some [("server", json_object.string "a"), ("timeout", json_object.int 5)])
        (fun _ s => some s) "config.json" (config_create (fun _ s => some s))).2.idle_timeout
      = to_unsigned_int (5 * 1000) ∧
    ((0 : Int) ≤ 5 → (5 : Int) ≤ 2147483 →
      ((parse_config_file
        (fun _ => some [("server", json_object.string "a"), ("timeout", json_object.int 5)])
        (fun _ s => some s) "config.json" (config_create (fun _ s => some s))).2.idle_timeout
          : Int) = 5 * 1000) :=
  ⟨by decide,
    parse_config_timeout (fun _ s => some s) "config.json" (config_create (fun _ s => some s))
      [("server", json_object.string "a"), ("timeout", json_object.int 5)] 5 (by decide)
      (List.mem_cons_of_mem _ (List.mem_cons_self _ _))⟩

/-- Counterexample to C11 as stated: for the object `{"timeout": 1}` the function stores
`idle_timeout = 1000`, not `1 * 60000`. -/
theorem timeout_unit_counterexample :
    (parse_config_file (fun _ => some [("timeout", json_object.int 1)]) (fun _ s => some s)
        "config.json" (config_create (fun _ s => some s))).2.idle_timeout = 1000 ∧
    (parse_config_file (fun _ => some [("timeout", json_object.int 1)]) (fun _ s => some s)
        "config.json" (config_create (fun _ s => some s))).2.idle_timeout ≠ 1 * 60000 := by
  decide

/-- C12: unrecognized configuration keys are ignored.  For every configuration object and
every member of it whose key is none of `local_address`, `local_port`, `server`, `server_port`,
`password`, `method`, `protocol`, `protocol_param`, `obfs`, `obfs_param`, `timeout`,
`parse_config_file` leaves the same `server_config` as for the object without that member, and
returns `true`. -/
theorem parse_config_ignores_unrecognized (ssa : Option String → String → Option String)
    (file : String) (cf : server_config) (pre post : List (String × json_object))
    (key : String) (val : json_object) (hkey : key ∉ recognized_keys) :
    parse_config_file (fun _ => some (pre ++ (key, val) :: post)) ssa file cf
      = parse_config_file (fun _ => some (pre ++ post)) ssa file cf ∧
    (parse_config_file (fun _ => some (pre ++ (key, val) :: post)) ssa file cf).1 = true := by
  unfold parse_config_file
  simp only [List.foldl_append, List.foldl_cons, member_unrecognized ssa _ key val hkey,
    and_self]

/-- Witness of C12: the member `"remarks": "x"` between two recognized members. -/
theorem parse_config_ignores_unrecognized_witness :
    "remarks" ∉ recognized_keys ∧
    parse_config_file
        (fun _ => some ([("server", json_object.string "a")]
          ++ ("remarks", json_object.string "x") :: [("timeout", json_object.int 5)]))
        (fun _ s => some s) "config.json" (config_create (fun _ s => some s))
      = parse_config_file
        (fun _ => some ([("server", json_object.string "a")]
          ++ [("timeout", json_object.int 5)]))
        (fun _ s => some s) "config.json" (config_create (fun _ s => some s)) ∧
    (parse_config_file
        (fun _ => some ([("server", json_object.string "a")]
          ++ ("remarks", json_object.string "x") :: [("timeout", json_object.int 5)]))
        (fun _ s => some s) "config.json" (config_create (fun _ s => some s))).1 = true :=
  ⟨by decide,
    parse_config_ignores_unrecognized (fun _ s => some s) "config.json"
      (config_create (fun _ s => some s)) [("server", json_object.string "a")]
      [("timeout", json_object.int 5)] "remarks" (json_object.string "x") (by decide)⟩

/-- C13 (the code at the failing input): with no option on the command line the loop of
`parse_opts` has no turn and the configuration stays as it was, whatever the files hold.  With
a file at `/etc/ssr-native/config.json` that sets `local_port` to 1081, the port stays at the
default 1080 without `-c`, and becomes 1081 with `-c /etc/ssr-native/config.json`. -/
theorem parse_opts_no_default_path :
    (∀ (json_object_from_file : String → Option (List (String × json_object)))
        (string_safe_assign : Option String → String → Option String) (cf : server_config),
      parse_opts json_object_from_file string_safe_assign cf [] = some cf) ∧
    (parse_opts
        (fun f => if f = DEFAULT_CONF_PATH then some [("local_port", json_object.int 1081)]
          else none)
        (fun _ s => some s) (config_create (fun _ s => some s)) []).map
      (fun cf => cf.listen_port) = some 1080 ∧
    (parse_opts
        (fun f => if f = DEFAULT_CONF_PATH then some [("local_port", json_object.int 1081)]
          else none)
        (fun _ s => some s) (config_create (fun _ s => some s))
        [('c', "/etc/ssr-native/config.json")]).map
      (fun cf => cf.listen_port) = some 1081 :=
  ⟨fun _ _ _ => rfl, by decide, by decide⟩

end ClientMain

/-! ## The claims on the framing codec, continued -/

namespace WsTlsBasic

/-- C14: fixed header bits.  For every call of `websocket_build_frame` that returns a frame
(the payload being an object in memory, of at most `PTRDIFF_MAX` bytes), byte 0 of the frame is
`0x82`, and bit 7 of byte 1 is set if and only if `masked` is not zero. -/
theorem build_frame_fixed_bits (masked : Int) (payload : Option (List Nat)) (payload_len : Nat)
    (allocator : Bool) (frame_len : Option Nat) (mask frame : List Nat)
    (hmax : payload_len ≤ PTRDIFF_MAX)
    (hs : (websocket_build_frame masked payload payload_len allocator frame_len mask).ret
      = some frame) :
    rd frame 0 = 0x82 ∧ (rd frame 1 &&& 0x80 = 0x80 ↔ masked ≠ 0) := by
  obtain ⟨P, rfl, h0, rfl⟩ :=
    build_frame_success masked payload payload_len allocator frame_len mask frame hs
  rw [build_frame_eq masked P mask payload_len frame_len h0 hmax] at hs
  simp only [Option.some.injEq] at hs
  subst hs
  refine ⟨rd_frame_image_zero _ _ _ _, ?_⟩
  rw [rd_frame_image_one, (len_byte_bits masked payload_len).1]
  by_cases hmk : masked = 0 <;> simp [hmk]

/-- Witness of C14: the payload `[1, 2, 3]`, masked with the key `[9, 8, 7, 6]`. -/
theorem build_frame_fixed_bits_witness :
    (3 : Nat) ≤ PTRDIFF_MAX ∧
    (websocket_build_frame 1 (some [1, 2, 3]) 3 true (some 0) [9, 8, 7, 6]).ret
      = some [0x82, 0x83, 9, 8, 7, 6, 8, 10, 4, 0] ∧
    rd [0x82, 0x83, 9, 8, 7, 6, 8, 10, 4, 0] 0 = 0x82 ∧
    (rd [0x82, 0x83, 9, 8, 7, 6, 8, 10, 4, 0] 1 &&& 0x80 = 0x80 ↔ (1 : Int) ≠ 0) :=
  ⟨by decide, by decide,
    build_frame_fixed_bits 1 (some [1, 2, 3]) 3 true (some 0) [9, 8, 7, 6]
      [0x82, 0x83, 9, 8, 7, 6, 8, 10, 4, 0] (by decide) (by decide)⟩

/-- C15: frame layout and size.  For every non-empty payload `P` (of at most `PTRDIFF_MAX`
bytes) the frame length `websocket_build_frame` reports is `2 + E + M + length P`, with `E`
equal to 0, 2 or 8 for the inline, 16-bit and 64-bit length forms and `M` equal to 4 when
masked and to 0 otherwise; and when `masked` is 0 the last `length P` bytes of the frame are
`P`. -/
theorem build_frame_layout_size (masked : Int) (P mask : List Nat) (fl0 : Nat)
    (hne : P ≠ []) (hmax : P.length ≤ PTRDIFF_MAX) :
    ∃ frame L,
      websocket_build_frame masked (some P) P.length true (some fl0) mask
        = ⟨some frame, some L⟩ ∧
      L = 2 + (if P.length ≤ 125 then 0 else if P.length ≤ 0xFFFF then 2 else 8)
          + (if masked ≠ 0 then 4 else 0) + P.length ∧
      (masked = 0 → (frame.take L).drop (L - P.length) = P) := by
  have h0 : P.length ≠ 0 := fun h => hne (List.length_eq_zero.mp h)
  refine ⟨frame_image masked mask P P.length, header_len masked P.length + P.length,
    build_frame_eq masked P mask P.length (some fl0) h0 hmax, rfl, ?_⟩
  intro hmk
  subst hmk
  have hl := length_frame_image 0 mask P P.length
  rw [Nat.add_sub_cancel]
  apply eq_of_rd
  · simp only [List.length_drop, List.length_take, hl]; omega
  · intro j hj
    have hj2 : j < P.length := by
      simp only [List.length_drop, List.length_take, hl] at hj; omega
    rw [rd_drop, rd_take _ _ _ (by omega), rd_frame_image_body, if_pos hj2, if_neg (by simp)]

/-- Witness of C15: the payload `[1, 2, 3]`, not masked. -/
theorem build_frame_layout_size_witness :
    ([1, 2, 3] : List Nat) ≠ [] ∧ ([1, 2, 3] : List Nat).length ≤ PTRDIFF_MAX ∧
    ∃ frame L,
      websocket_build_frame 0 (some [1, 2, 3]) ([1, 2, 3] : List Nat).length true (some 0) []
        = ⟨some frame, some L⟩ ∧
      L = 2 + (if ([1, 2, 3] : List Nat).length ≤ 125 then 0
            else if ([1, 2, 3] : List Nat).length ≤ 0xFFFF then 2 else 8)
          + (if (0 : Int) ≠ 0 then 4 else 0) + ([1, 2, 3] : List Nat).length ∧
      ((0 : Int) = 0 → (frame.take L).drop (L - ([1, 2, 3] : List Nat).length) = [1, 2, 3]) :=
  ⟨by decide, by decide, build_frame_layout_size 0 [1, 2, 3] [] 0 (by decide) (by decide)⟩

/-- C16: unmasking in `websocket_retrieve_payload`.  For every input of bytes on which it
succeeds, with `H` the offset 2, 4 or 10 at which the length field of the inline, 16-bit or
64-bit form ends and `n` the declared length, the returned block holds `n` payload bytes and the
spare zero byte.  With the mask bit set the key is the 4 bytes `data[H..H+3]` and payload byte
`i` is `data[H+4+i] XOR data[H + (i mod 4)]`; with the mask bit clear payload byte `i` is
`data[H+i]`. -/
theorem retrieve_unmasking (data : List Nat) (dataLen : Nat) (allocator : Bool)
    (pl : Option Nat) (package : List Nat) (out : Option Nat) (hb : IsBytes data)
    (hs : websocket_retrieve_payload data dataLen allocator pl = ⟨some package, out⟩) :
    package.length = declared_payload_len data + 1 ∧
    rd package (declared_payload_len data) = 0 ∧
    (rd data 1 &&& 0x80 = 0x80 →
      retrieve_header data dataLen
        = some (declared_payload_len data, declared_key_offset data + 4,
            [rd data (declared_key_offset data), rd data (declared_key_offset data + 1),
              rd data (declared_key_offset data + 2), rd data (declared_key_offset data + 3)]) ∧
      declared_key_offset data + 4 + declared_payload_len data ≤ dataLen ∧
      ∀ i, i < declared_payload_len data →
        rd package i
          = rd data (declared_key_offset data + 4 + i)
              ^^^ rd data (declared_key_offset data + i % 4)) ∧
    (rd data 1 &&& 0x80 ≠ 0x80 →
      declared_key_offset data + declared_payload_len data ≤ dataLen ∧
      ∀ i, i < declared_payload_len data → rd package i = rd data (declared_key_offset data + i)) := by
  obtain ⟨-, h2, h3, h4, h5, h6, -⟩ :=
    retrieve_success_closed data dataLen allocator pl package out hb hs
  subst h6
  rw [declared_header_len_eq] at h5
  refine ⟨by simp [length_declared_payload], ?_, ?_, ?_⟩
  · unfold declared_payload
    rw [rd_map_range_zero, if_neg (Nat.lt_irrefl _)]
  · intro hm
    rw [if_pos hm] at h5
    refine ⟨?_, h5, fun i hi => by rw [rd_declared_payload data i hi, if_pos hm]⟩
    rw [retrieve_header_eq, if_neg (fun h => h.elim h3 h4), if_pos hm, declared_header_len_eq,
      if_pos hm]
  · intro hm
    rw [if_neg hm] at h5
    exact ⟨h5, fun i hi => by rw [rd_declared_payload data i hi, if_neg hm]⟩

/-- Witness of C16: a masked frame of 2 payload bytes. -/
theorem retrieve_unmasking_witness :
    IsBytes [0x82, 0x82, 9, 8, 7, 6, 8, 10] ∧
    websocket_retrieve_payload [0x82, 0x82, 9, 8, 7, 6, 8, 10] 8 true (some 0)
      = ⟨some [1, 2, 0], some 2⟩ ∧
    ([1, 2, 0] : List Nat).length = declared_payload_len [0x82, 0x82, 9, 8, 7, 6, 8, 10] + 1 ∧
    rd [1, 2, 0] (declared_payload_len [0x82, 0x82, 9, 8, 7, 6, 8, 10]) = 0 :=
  ⟨by decide, by decide,
    (retrieve_unmasking [0x82, 0x82, 9, 8, 7, 6, 8, 10] 8 true (some 0) [1, 2, 0] (some 2)
      (by decide) (by decide)).1,
    (retrieve_unmasking [0x82, 0x82, 9, 8, 7, 6, 8, 10] 8 true (some 0) [1, 2, 0] (some 2)
      (by decide) (by decide)).2.1⟩

/-- C17: minimum header sizes.  `websocket_retrieve_payload` returns no payload for an input
shorter than 2 bytes, for an input shorter than 4 bytes whose length code is 126 and for an
input shorter than 10 bytes whose length code is 127. -/
theorem retrieve_minimum_header (data : List Nat) (dataLen : Nat) (allocator : Bool)
    (pl : Option Nat)
    (h : dataLen < 2 ∨ (dataLen < 4 ∧ rd data 1 &&& 0x7F = 126) ∨
      (dataLen < 10 ∧ rd data 1 &&& 0x7F = 127)) :
    websocket_retrieve_payload data dataLen allocator pl = ⟨none, pl⟩ := by
  unfold websocket_retrieve_payload
  cases allocator with
  | false => simp
  | true =>
    by_cases c2 : dataLen < 2
    · simp [c2]
    · have hh : retrieve_header data dataLen = none := by
        unfold retrieve_header
        rcases h with h | ⟨h1, h2⟩ | ⟨h1, h2⟩
        · exact absurd h c2
        · simp [h1, h2]
        · simp [h1, h2]
      simp [c2, hh]

/-- Witness of C17: three bytes with the length code 126. -/
theorem retrieve_minimum_header_witness :
    (3 < 4 ∧ rd [0x82, 126, 1] 1 &&& 0x7F = 126) ∧
    websocket_retrieve_payload [0x82, 126, 1] 3 true (some 5) = ⟨none, some 5⟩ :=
  ⟨by decide,
    retrieve_minimum_header [0x82, 126, 1] 3 true (some 5) (Or.inr (Or.inl (by decide)))⟩

/-- C18: FIN and opcode are not enforced.  Two inputs of equal length that differ only in
byte 0 give the same result: `websocket_retrieve_payload` on `a :: t` and on `b :: t`, with the
same `dataLen`, returns the same pointer (both `NULL`, or the same payload) and the same
`*payload_len`. -/
theorem retrieve_ignores_first_byte (a b : Nat) (t : List Nat) (dataLen : Nat)
    (allocator : Bool) (pl : Option Nat) :
    websocket_retrieve_payload (a :: t) dataLen allocator pl
      = websocket_retrieve_payload (b :: t) dataLen allocator pl := by
  unfold websocket_retrieve_payload
  simp only [retrieve_header_cons a b t dataLen, rd_cons_succ]
  cases hh : retrieve_header (b :: t) dataLen with
  | none => rfl
  | some r =>
    obtain ⟨len, H, key⟩ := r
    have hH : 2 ≤ H := by
      rw [(retrieve_header_declared (b :: t) dataLen len H key hh).2]
      exact two_le_declared_header_len _
    simp only []
    rw [unmask_loop_congr (a :: t) (b :: t) key H len _
        (fun i _ => rd_cons_pos a b t (i + H) (by omega)),
      memcpy_src_congr _ 0 (a :: t) (b :: t) H len
        (fun i _ => rd_cons_pos a b t (H + i) (by omega))]

/-- C19: trailing bytes are ignored.  If `websocket_retrieve_payload` succeeds on the bytes `D`
with the block `package` and the reported length `out`, then for every byte string `X` it
succeeds on `D ++ X` with the same block and the same reported length. -/
theorem retrieve_ignores_trailing (D X : List Nat) (allocator : Bool) (pl : Option Nat)
    (package : List Nat) (out : Option Nat) (hD : IsBytes D) (hX : IsBytes X)
    (hs : websocket_retrieve_payload D D.length allocator pl = ⟨some package, out⟩) :
    websocket_retrieve_payload (D ++ X) (D ++ X).length allocator pl = ⟨some package, out⟩ := by
  obtain ⟨rfl, h2, h3, h4, h5, h6, h7⟩ :=
    retrieve_success_closed D D.length allocator pl package out hD hs
  have hrd : ∀ j, j < D.length → rd (D ++ X) j = rd D j :=
    fun j hj => rd_append_left D X j hj
  have h1 : rd (D ++ X) 1 = rd D 1 := hrd 1 (by omega)
  have hK : declared_key_offset (D ++ X) = declared_key_offset D := by
    unfold declared_key_offset; rw [h1]
  have hH : declared_header_len (D ++ X) = declared_header_len D := by
    unfold declared_header_len; rw [h1]
  have hn : declared_payload_len (D ++ X) = declared_payload_len D := by
    unfold declared_payload_len
    rw [h1]
    by_cases c1 : rd D 1 &&& 0x7F = 126
    · have h4' : 4 ≤ D.length := Nat.le_of_not_lt (fun h => h3 ⟨c1, h⟩)
      simp only [c1, if_true, load_ntohs]
      rw [hrd 2 (by omega), hrd (2 + 1) (by omega)]
    · by_cases c2 : rd D 1 &&& 0x7F = 127
      · have h10 : 10 ≤ D.length := Nat.le_of_not_lt (fun h => h4 ⟨c2, Or.inl h⟩)
        simp only [c2, Nat.reduceEqDiff, if_false, if_true, load_ntohl]
        rw [hrd 6 (by omega), hrd (6 + 1) (by omega), hrd (6 + 2) (by omega),
          hrd (6 + 3) (by omega)]
      · simp only [c1, c2, if_false]
  have hKle := declared_key_offset_le D
  have hp : declared_payload (D ++ X) = declared_payload D := by
    unfold declared_payload
    rw [hn, hK, h1]
    apply List.map_congr_left
    intro i hi
    have hi2 : i < declared_payload_len D := List.mem_range.mp hi
    have h44 : i % 4 < 4 := Nat.mod_lt _ (by decide)
    rw [declared_header_len_eq] at h5
    by_cases hm : rd D 1 &&& 0x80 = 0x80
    · rw [if_pos hm] at h5
      simp only [hm, if_true]
      rw [hrd _ (by omega), hrd _ (by omega)]
    · rw [if_neg hm] at h5
      simp only [hm, if_false]
      rw [hrd _ (by omega)]
  have hlen : (D ++ X).length = D.length + X.length := List.length_append D X
  rw [retrieve_closed (D ++ X) _ pl (isBytes_append hD hX), hH, hn, hp, h1, h6, h7]
  have c : ¬ ((D ++ X).length < 2 ∨ (rd D 1 &&& 0x7F = 126 ∧ (D ++ X).length < 4) ∨
      (rd D 1 &&& 0x7F = 127 ∧
        ((D ++ X).length < 10 ∨ rd (D ++ X) 2 ≠ 0 ∨ rd (D ++ X) 3 ≠ 0 ∨ rd (D ++ X) 4 ≠ 0 ∨
          rd (D ++ X) 5 ≠ 0)) ∨
      (D ++ X).length < declared_header_len D + declared_payload_len D) := by
    intro h
    rcases h with h | ⟨c1, h⟩ | ⟨c2, h⟩ | h
    · omega
    · exact h3 ⟨c1, by omega⟩
    · have h10 : 10 ≤ D.length := Nat.le_of_not_lt (fun h => h4 ⟨c2, Or.inl h⟩)
      rw [hrd 2 (by omega), hrd 3 (by omega), hrd 4 (by omega), hrd 5 (by omega)] at h
      rcases h with h | h
      · omega
      · exact h4 ⟨c2, Or.inr h⟩
    · omega
  rw [if_neg c]

/-- Witness of C19: a frame of the payload `[1, 2]` followed by the start of another frame. -/
theorem retrieve_ignores_trailing_witness :
    IsBytes [0x82, 2, 1, 2] ∧ IsBytes [0x82, 5] ∧
    websocket_retrieve_payload [0x82, 2, 1, 2] ([0x82, 2, 1, 2] : List Nat).length true (some 0)
      = ⟨some [1, 2, 0], some 2⟩ ∧
    websocket_retrieve_payload ([0x82, 2, 1, 2] ++ [0x82, 5])
      (([0x82, 2, 1, 2] : List Nat) ++ [0x82, 5]).length true (some 0)
      = ⟨some [1, 2, 0], some 2⟩ :=
  ⟨by decide, by decide, by decide,
    retrieve_ignores_trailing [0x82, 2, 1, 2] [0x82, 5] true (some 0) [1, 2, 0] (some 2)
      (by decide) (by decide) (by decide)⟩

/-- C20 (the code at the failing input): for the 2 bytes `0x82 0x81`, a header with the mask
bit set and the length 1, `websocket_retrieve_payload` returns `NULL`, and before that reads
`data[2]`, `data[3]`, `data[4]` and `data[5]`, the bytes `memcpy` takes for `maskKey`, which
lie past the 2 bytes given. -/
theorem retrieve_reads_past_input :
    websocket_retrieve_payload [0x82, 0x81] 2 true (some 0) = ⟨none, some 0⟩ ∧
    websocket_retrieve_payload_reads [0x82, 0x81] 2 true = [0, 0, 1, 1, 2, 3, 4, 5] ∧
    ¬ ∀ j ∈ websocket_retrieve_payload_reads [0x82, 0x81] 2 true, j < 2 := by
  decide

end WsTlsBasic
